import Mathlib

/-!
Verification of the SciScroll content engine (`backend/content_engine.py`).

A shallow embedding of the engagement-scoring → strategy-selection →
content-assembly pipeline, together with proofs of its specified
properties.  Python values flowing through the engine (telemetry dicts,
content blocks, responses) are modelled by the JSON-like type `Val`;
Python floats are modelled by `ℚ`; Python's random calls
(`random.shuffle`, `random.choice`, `random.sample`) and the uuid-based
id generator are modelled by explicit oracle parameters, so theorems
quantify over all their possible outcomes.

The repository imports two modules whose sources are not part of the
backend sources verified here (`topic_graph`, `api_clients`); their
interfaces are modelled from the design document (see the
`Modelled from the spec:` doc comments below).
-/

namespace SciScroll

/-- A Python/JSON value: `None`, `bool`, `int`, `float` (as `ℚ`),
`str`, `list`, or `dict` (association list, first binding wins). -/
inductive Val where
  | vnone : Val
  | vbool : Bool → Val
  | vint : ℤ → Val
  | vnum : ℚ → Val
  | vstr : String → Val
  | vlist : List Val → Val
  | vdict : List (String × Val) → Val

mutual

/-- Decidable equality on `Val` (the `deriving` handler does not support
this nested inductive). -/
def Val.deq : (a b : Val) → Decidable (a = b)
  | .vnone, .vnone => isTrue rfl
  | .vbool a, .vbool b =>
    if h : a = b then isTrue (by rw [h]) else isFalse (fun hh => h (Val.vbool.inj hh))
  | .vint a, .vint b =>
    if h : a = b then isTrue (by rw [h]) else isFalse (fun hh => h (Val.vint.inj hh))
  | .vnum a, .vnum b =>
    if h : a = b then isTrue (by rw [h]) else isFalse (fun hh => h (Val.vnum.inj hh))
  | .vstr a, .vstr b =>
    if h : a = b then isTrue (by rw [h]) else isFalse (fun hh => h (Val.vstr.inj hh))
  | .vlist a, .vlist b =>
    match Val.deqList a b with
    | isTrue h => isTrue (by rw [h])
    | isFalse h => isFalse (fun hh => h (Val.vlist.inj hh))
  | .vdict a, .vdict b =>
    match Val.deqDict a b with
    | isTrue h => isTrue (by rw [h])
    | isFalse h => isFalse (fun hh => h (Val.vdict.inj hh))
  | .vnone, .vbool _ | .vnone, .vint _ | .vnone, .vnum _ | .vnone, .vstr _
  | .vnone, .vlist _ | .vnone, .vdict _
  | .vbool _, .vnone | .vbool _, .vint _ | .vbool _, .vnum _ | .vbool _, .vstr _
  | .vbool _, .vlist _ | .vbool _, .vdict _
  | .vint _, .vnone | .vint _, .vbool _ | .vint _, .vnum _ | .vint _, .vstr _
  | .vint _, .vlist _ | .vint _, .vdict _
  | .vnum _, .vnone | .vnum _, .vbool _ | .vnum _, .vint _ | .vnum _, .vstr _
  | .vnum _, .vlist _ | .vnum _, .vdict _
  | .vstr _, .vnone | .vstr _, .vbool _ | .vstr _, .vint _ | .vstr _, .vnum _
  | .vstr _, .vlist _ | .vstr _, .vdict _
  | .vlist _, .vnone | .vlist _, .vbool _ | .vlist _, .vint _ | .vlist _, .vnum _
  | .vlist _, .vstr _ | .vlist _, .vdict _
  | .vdict _, .vnone | .vdict _, .vbool _ | .vdict _, .vint _ | .vdict _, .vnum _
  | .vdict _, .vstr _ | .vdict _, .vlist _ => isFalse (fun h => Val.noConfusion h)

/-- Decidable equality on lists of `Val`. -/
def Val.deqList : (a b : List Val) → Decidable (a = b)
  | [], [] => isTrue rfl
  | [], _ :: _ => isFalse (fun h => List.noConfusion h)
  | _ :: _, [] => isFalse (fun h => List.noConfusion h)
  | a :: as, b :: bs =>
    match Val.deq a b, Val.deqList as bs with
    | isTrue h1, isTrue h2 => isTrue (by rw [h1, h2])
    | isFalse h1, _ => isFalse (fun hh => by injection hh with hx hy; exact h1 hx)
    | _, isFalse h2 => isFalse (fun hh => by injection hh with hx hy; exact h2 hy)

/-- Decidable equality on dict entry lists. -/
def Val.deqDict : (a b : List (String × Val)) → Decidable (a = b)
  | [], [] => isTrue rfl
  | [], _ :: _ => isFalse (fun h => List.noConfusion h)
  | _ :: _, [] => isFalse (fun h => List.noConfusion h)
  | (k1, v1) :: as, (k2, v2) :: bs =>
    match (inferInstance : Decidable (k1 = k2)), Val.deq v1 v2, Val.deqDict as bs with
    | isTrue hk, isTrue h1, isTrue h2 => isTrue (by rw [hk, h1, h2])
    | isFalse hk, _, _ =>
      isFalse (fun hh => by injection hh with hx hy; exact hk (congrArg Prod.fst hx))
    | _, isFalse h1, _ =>
      isFalse (fun hh => by injection hh with hx hy; exact h1 (congrArg Prod.snd hx))
    | _, _, isFalse h2 => isFalse (fun hh => by injection hh with hx hy; exact h2 hy)

end

instance : DecidableEq Val := Val.deq

namespace Val

/-- First-match association-list lookup, modelling `dict.get` /
`key in dict` on the dicts the engine builds (whose keys are distinct). -/
def dictGet : List (String × Val) → String → Option Val
  | [], _ => none
  | (k, v) :: rest, key => if k = key then some v else dictGet rest key

/-- `d.get key` for a dict value; `none` for non-dicts. -/
def get : Val → String → Option Val
  | vdict d, key => dictGet d key
  | _, _ => none

/-- Python truthiness. -/
def truthy : Val → Bool
  | vnone => false
  | vbool b => b
  | vint n => n ≠ 0
  | vnum q => q ≠ 0
  | vstr s => s ≠ ""
  | vlist l => !l.isEmpty
  | vdict d => !d.isEmpty

def isDict : Val → Bool
  | vdict _ => true
  | _ => false

end Val

open Val

/-- `max` on `ℤ` written with `if` so that it reduces in the kernel. -/
def imax (a b : ℤ) : ℤ := if a ≤ b then b else a

/-- `min` on `ℚ` written with `if` so that it reduces in the kernel. -/
def rmin (a b : ℚ) : ℚ := if a ≤ b then a else b

/-- `max` on `ℚ` written with `if` so that it reduces in the kernel. -/
def rmax (a b : ℚ) : ℚ := if a ≤ b then b else a

/-- Truncation toward zero, as Python's `int(float)`. -/
def ratTrunc (q : ℚ) : ℤ :=
  if 0 ≤ q then ⌊q⌋ else -⌊-q⌋

/-- Decimal digit value of a character, if it is a digit. -/
def digitVal (c : Char) : Option ℕ :=
  let n := c.toNat
  if 48 ≤ n ∧ n ≤ 57 then some (n - 48) else none

/-- Accumulate a digit string into a number; fails on a non-digit. -/
def parseDigitsAux : List Char → ℕ → Option ℕ
  | [], acc => some acc
  | c :: cs, acc => (digitVal c).bind fun d => parseDigitsAux cs (10 * acc + d)

/-- Parse a non-empty all-digit character list. -/
def parseDigits : List Char → Option ℕ
  | [] => none
  | cs => parseDigitsAux cs 0

/-- Parse an optionally signed decimal integer, modelling Python's
`int(str)` (which raises on anything else). -/
def strToInt (s : String) : Option ℤ :=
  match s.data with
  | '-' :: rest => (parseDigits rest).map (fun n => -(n : ℤ))
  | '+' :: rest => (parseDigits rest).map (fun n => (n : ℤ))
  | cs => (parseDigits cs).map (fun n => (n : ℤ))

/-- Python's `int(x)` coercion as used by `sanitize_time_data`:
succeeds on bools, ints, floats and integer-literal strings, fails
(`ValueError`/`TypeError`) otherwise. -/
def pyInt : Val → Option ℤ
  | vbool b => some (if b then 1 else 0)
  | vint n => some n
  | vnum q => some (ratTrunc q)
  | vstr s => strToInt s
  | _ => none

/-- Python's `str(x)` as used for `current_node_id` (rendering of
compound values is approximate; every claim treats it opaquely). -/
def pyStr : Val → String
  | vnone => "None"
  | vbool b => if b then "True" else "False"
  | vint n => toString n
  | vnum q => toString q
  | vstr s => s
  | vlist _ => "[...]"
  | vdict _ => "{...}"

/-- The sanitized telemetry sample returned by `sanitize_time_data`:
a dict with exactly the six telemetry keys, here a record with one
field per key. -/
structure TimeData where
  current_node_id : String
  total_time_on_node_ms : ℤ
  scroll_events : ℤ
  go_deeper_clicks : ℤ
  sections_in_current_node : ℤ
  time_per_section_ms : ℤ
  deriving DecidableEq

/-- The all-default sample. -/
def defaultTimeData : TimeData :=
  { current_node_id := ""
    total_time_on_node_ms := 0
    scroll_events := 0
    go_deeper_clicks := 0
    sections_in_current_node := 1
    time_per_section_ms := 0 }

/-- One numeric field of `sanitize_time_data`: take the value at `key`
(default `dflt`), coerce with `int(...)` falling back to the default on
`None` or failure, then clamp to `≥ 0`. -/
def sanitizeField (d : List (String × Val)) (key : String) (dflt : ℤ) : ℤ :=
  let val := (dictGet d key).getD (vint dflt)
  let n := match val with
    | vnone => dflt
    | v => (pyInt v).getD dflt
  imax 0 n

/-- `sanitize_time_data` from `content_engine.py`: non-dicts yield the
defaults; each numeric field is coerced and clamped to `≥ 0`;
`sections_in_current_node` is raised to `≥ 1` afterwards. -/
def sanitize_time_data (time_data : Val) : TimeData :=
  match time_data with
  | vdict d =>
    let node_id := match dictGet d "current_node_id" with
      | none => ""
      | some vnone => ""
      | some v => pyStr v
    let r : TimeData :=
      { current_node_id := node_id
        total_time_on_node_ms := sanitizeField d "total_time_on_node_ms" 0
        scroll_events := sanitizeField d "scroll_events" 0
        go_deeper_clicks := sanitizeField d "go_deeper_clicks" 0
        sections_in_current_node := sanitizeField d "sections_in_current_node" 1
        time_per_section_ms := sanitizeField d "time_per_section_ms" 0 }
    if r.sections_in_current_node < 1 then
      { r with sections_in_current_node := 1 }
    else r
  | _ => defaultTimeData

/-- Round half to even at the integers, as Python's `round`. -/
def roundHalfEven (q : ℚ) : ℤ :=
  let f := ⌊q⌋
  let r := q - f
  if r < 1/2 then f
  else if 1/2 < r then f + 1
  else if Even f then f else f + 1

/-- `round(x, 4)`. -/
def round4 (q : ℚ) : ℚ := (roundHalfEven (q * 10000) : ℚ) / 10000

/-- `compute_engagement_score` from `content_engine.py`, with Python
float arithmetic modelled by exact rational arithmetic. -/
def compute_engagement_score (time_data : Val) : ℚ :=
  let td := sanitize_time_data time_data
  let time_ms : ℚ := td.total_time_on_node_ms
  let time_factor := rmin 1 (time_ms / 60000)
  let scroll_factor := rmin 1 ((td.scroll_events : ℚ) / 10)
  let click_factor := rmin 1 ((td.go_deeper_clicks : ℚ) * (0.5 : ℚ))
  let sections : ℚ := td.sections_in_current_node
  let total_time : ℚ := td.total_time_on_node_ms
  let time_per_section : ℚ := td.time_per_section_ms
  let variance_factor :=
    if 0 < total_time ∧ 0 < sections then
      let expected_per_section := total_time / sections
      if 0 < expected_per_section then
        rmin 1 (time_per_section / expected_per_section)
      else 0
    else 0
  let score := (0.30 : ℚ) * time_factor + (0.20 : ℚ) * scroll_factor
    + (0.30 : ℚ) * click_factor + (0.20 : ℚ) * variance_factor
  round4 (rmax 0 (rmin 1 score))

/-- `select_strategy` from `content_engine.py`. -/
def select_strategy (engagement_score : ℚ) : String :=
  if (0.65 : ℚ) ≤ engagement_score then "deeper"
  else if (0.35 : ℚ) ≤ engagement_score then "branch"
  else "pivot"

/-! ### Spec-side formulation of the engagement formula (claim C1) -/

/-- Claimed time factor: `min(1, total_time_ms / 60000)`. -/
def time_factor_spec (td : TimeData) : ℚ :=
  rmin 1 ((td.total_time_on_node_ms : ℚ) / 60000)

/-- Claimed scroll factor: `min(1, scroll_events / 10)`. -/
def scroll_factor_spec (td : TimeData) : ℚ :=
  rmin 1 ((td.scroll_events : ℚ) / 10)

/-- Claimed click factor: `min(1, go_deeper_clicks · 0.5)`. -/
def click_factor_spec (td : TimeData) : ℚ :=
  rmin 1 ((td.go_deeper_clicks : ℚ) * (0.5 : ℚ))

/-- Claimed variance factor: `min(1, time_per_section_ms / (total_time_ms /
sections))` when `total_time_ms > 0`, and `0` otherwise. -/
def variance_factor_spec (td : TimeData) : ℚ :=
  if 0 < td.total_time_on_node_ms then
    rmin 1 ((td.time_per_section_ms : ℚ)
      / ((td.total_time_on_node_ms : ℚ) / (td.sections_in_current_node : ℚ)))
  else 0

/-- The score as the claim words it: the weighted sum of the four factors
of the sanitized sample, clamped to `[0,1]` and rounded to 4 decimals. -/
def claimed_score (v : Val) : ℚ :=
  let td := sanitize_time_data v
  round4 (rmax 0 (rmin 1 ((0.30 : ℚ) * time_factor_spec td
    + (0.20 : ℚ) * scroll_factor_spec td
    + (0.30 : ℚ) * click_factor_spec td
    + (0.20 : ℚ) * variance_factor_spec td)))

/-- The all-zero telemetry sample. -/
def allZeroSample : Val :=
  vdict [("current_node_id", vstr ""),
    ("total_time_on_node_ms", vint 0),
    ("scroll_events", vint 0),
    ("go_deeper_clicks", vint 0),
    ("sections_in_current_node", vint 1),
    ("time_per_section_ms", vint 0)]

/-- Every factor saturated: `total_time ≥ 60000 ms`, `≥ 10` scrolls, `≥ 2`
clicks, and `time_per_section ≥ total_time / sections` (written
multiplicatively; for a sanitized sample `sections ≥ 1 > 0`, so this is
exactly the claim's division form). -/
def saturatedTD (td : TimeData) : Prop :=
  60000 ≤ td.total_time_on_node_ms ∧ 10 ≤ td.scroll_events ∧
    2 ≤ td.go_deeper_clicks ∧
    td.total_time_on_node_ms ≤ td.time_per_section_ms * td.sections_in_current_node

instance (td : TimeData) : Decidable (saturatedTD td) := by
  unfold saturatedTD; infer_instance

/-- A concrete saturated telemetry sample (the test suite's
maximum-engagement fixture). -/
def satSample : Val :=
  vdict [("total_time_on_node_ms", vint 120000),
    ("scroll_events", vint 20),
    ("go_deeper_clicks", vint 5),
    ("sections_in_current_node", vint 4),
    ("time_per_section_ms", vint 30000)]

/-! ### Media variety tracker -/

/-- `MEDIA_TYPES` from `content_engine.py`. -/
def MEDIA_TYPES : List String :=
  ["unsplash", "wikipedia_image", "wikimedia", "reddit", "xkcd", "meme", "tweet"]

/-- The state of a `MediaVarietyTracker`: the configured types, the
rotation queue (front = next to pop), and the last emitted kind. -/
structure Tracker where
  types : List String
  queue : List String
  last : Option String
  deriving DecidableEq

/-- `MediaVarietyTracker.__init__`: `list(media_types or MEDIA_TYPES)`
(so `None` and the empty list both fall back to `MEDIA_TYPES`). -/
def mkTracker (media_types : Option (List String)) : Tracker :=
  let t := match media_types with
    | none => MEDIA_TYPES
    | some l => if l.isEmpty then MEDIA_TYPES else l
  ⟨t, t, none⟩

/-- The duplicate-avoidance loop of `next_type`: while the popped type
equals `last`, more than one type is configured, and fewer than
`len(types)` attempts were made (encoded by `fuel`, initially
`len(types)`), push the popped type to the back and pop again. -/
def avoidDup (lastv : Option String) (tlen : ℕ) : ℕ → String → List String → String × List String
  | 0, m, q => (m, q)
  | fuel + 1, m, q =>
    if lastv = some m ∧ 1 < tlen then
      match q with
      | [] => avoidDup lastv tlen fuel m []
      | m2 :: q2 => avoidDup lastv tlen fuel m2 (q2 ++ [m])
    else (m, q)

/-- `MediaVarietyTracker.next_type`, with the `random.shuffle` outcome on
queue exhaustion supplied as `shuffled`.  Returns `none` exactly when the
pop would raise (empty queue and empty refill). -/
def next_type (t : Tracker) (shuffled : List String) : Option (String × Tracker) :=
  match (if t.queue.isEmpty then shuffled else t.queue) with
  | [] => none
  | m :: rest =>
    some ((avoidDup t.last t.types.length t.types.length m rest).1,
      ⟨t.types, (avoidDup t.last t.types.length t.types.length m rest).2,
        some (avoidDup t.last t.types.length t.types.length m rest).1⟩)

/-- Run a tracker through one `next_type` call per entry of `shuffles`
(each entry is the shuffle outcome used if that call refills). -/
def runTracker (t : Tracker) : List (List String) → Option (List String × Tracker)
  | [] => some ([], t)
  | sh :: rest =>
    (next_type t sh).bind fun r =>
      (runTracker r.2 rest).map fun rr => (r.1 :: rr.1, rr.2)

/-- Invariant of the tracker state: the queue is duplicate-free, queue
members are configured types, and the last emitted kind (if any) is a
configured type no longer in the queue. -/
def TrackerInv (t : Tracker) : Prop :=
  t.queue.Nodup ∧ (∀ x ∈ t.queue, x ∈ t.types) ∧
    ∀ l, t.last = some l → l ∈ t.types ∧ l ∉ t.queue

/-- The shuffle outcomes of the C3 counterexample: every entry is a true
permutation of the configured list. -/
def cexShuffles : List (List String) :=
  [["b", "a", "a"], ["b", "a", "a"], ["b", "a", "a"],
   ["b", "a", "a"], ["b", "a", "a"], ["b", "a", "a"]]

/-! ### Topic graph (interface of the missing `topic_graph.py`) -/

/-- A topic node: id (slug), label, description. -/
structure GNode where
  id : String
  label : String
  descr : String
  deriving DecidableEq

/-- Modelled from the spec: the lookup interface of the missing module
`topic_graph.py` — `get_node`, the main-topic keys of `TOPIC_GRAPH`,
the strategy-keyed subtopic lists, and `find_topic_for_node`. -/
structure TopicGraph where
  getNode : String → Option GNode
  mainTopics : List String
  subtopics : String → String → List GNode
  findTopic : String → Option String

/-- Modelled from the spec: `get_subtopic_nodes(main, strategy, exclude)`
returns the main topic's subtopic list for the strategy minus the
excluded (visited) node ids. -/
def get_subtopic_nodes (g : TopicGraph) (main strategy : String)
    (exclude : List String) : List GNode :=
  (g.subtopics main strategy).filter (fun n => !exclude.contains n.id)

/-- Modelled from the spec: `slugify` from the missing `topic_graph.py`
(lowercases, strips punctuation, collapses whitespace and dashes,
truncates to a bounded length).  It only feeds placeholder URLs here. -/
def slugify (s : String) : String :=
  let cleaned := (s.toLower.map (fun c => if c.isAlphanum then c else ' '))
  let words := (cleaned.split (· = ' ')).filter (· ≠ "")
  (String.intercalate "-" words).take 80

/-- Python's `str.title()` (as applied to unknown topic ids): make each
letter that follows a non-letter uppercase, the rest lowercase. -/
def pyTitleAux : Bool → List Char → List Char
  | _, [] => []
  | prevAlpha, c :: cs =>
    (if c.isAlpha then (if prevAlpha then c.toLower else c.toUpper) else c)
      :: pyTitleAux c.isAlpha cs

def pyTitle (s : String) : String := String.mk (pyTitleAux false s.data)

/-- `node["label"] if node else topic_id.replace("-", " ").title()`. -/
def labelFor (g : TopicGraph) (topic_id : String) : String :=
  match g.getNode topic_id with
  | some n => n.label
  | none => pyTitle (topic_id.replace "-" " ")

/-- `topic_id if topic_id in TOPIC_GRAPH else find_topic_for_node(topic_id)`,
falling back to the raw id when both fail (mock path). -/
def resolveMain (g : TopicGraph) (topic_id : String) : String :=
  if g.mainTopics.contains topic_id then topic_id
  else (g.findTopic topic_id).getD topic_id

/-! ### Mock content pools -/

/-- Association lookup with a default (`dict.get(k, dflt)`). -/
def assocD {α : Type} (l : List (String × α)) (k : String) (dflt : α) : α :=
  match l with
  | [] => dflt
  | (k2, v) :: rest => if k2 = k then v else assocD rest k dflt

/-- `TOPIC_POOLS` from `content_engine.py`: topic → strategy → text pool. -/
def TOPIC_POOLS : List (String × List (String × List String)) := [
  ("black-holes", [
    ("deeper", [
      "Black holes form when massive stars collapse at the end of their lifecycle. The core implodes under its own gravity, creating a region so dense that not even light can escape.",
      "At the center of a black hole lies the singularity — a point of theoretically infinite density where the known laws of physics break down completely.",
      "Hawking radiation, proposed by Stephen Hawking in 1974, suggests that black holes slowly evaporate by emitting thermal radiation due to quantum effects near the event horizon.",
      "The event horizon is not a physical barrier but a mathematical boundary. Once crossed, the escape velocity exceeds the speed of light, making return impossible."]),
    ("branch", [
      "Neutron stars are the ultra-dense remnants of supernova explosions. A teaspoon of neutron star material would weigh about a billion tons on Earth.",
      "Gravitational waves, first detected by LIGO in 2015, are ripples in spacetime produced when massive objects like black holes merge.",
      "Einstein's general relativity describes gravity not as a force, but as the curvature of spacetime caused by mass and energy."]),
    ("pivot", [
      "While black holes operate at the largest scales, quantum mechanics governs the smallest. The quest to unify these two frameworks is one of physics' greatest challenges.",
      "Just as black holes represent extreme physics, CRISPR represents extreme biology — the ability to edit the fundamental code of life with unprecedented precision."])]),
  ("quantum-mechanics", [
    ("deeper", [
      "Wave-particle duality is one of quantum mechanics' most counterintuitive concepts. Photons and electrons exhibit both wave-like interference and particle-like detection.",
      "Quantum entanglement connects particles across any distance instantaneously. Measuring one particle instantly determines the state of its entangled partner.",
      "Heisenberg's uncertainty principle states that the more precisely you know a particle's position, the less precisely you can know its momentum, and vice versa.",
      "Quantum tunneling allows particles to pass through energy barriers they classically shouldn't be able to surmount, enabling processes like nuclear fusion in stars."]),
    ("branch", [
      "Quantum computers harness superposition and entanglement to solve certain problems exponentially faster than classical computers.",
      "The Standard Model of particle physics categorizes all known fundamental particles and describes three of the four fundamental forces of nature."]),
    ("pivot", [
      "From the quantum world to the cosmic: dark matter makes up about 27% of the universe, yet we can't see or directly detect it.",
      "Neural networks, inspired by biological brains, learn patterns from data — a computational approach that mirrors quantum systems' statistical nature."])]),
  ("crispr-gene-editing", [
    ("deeper", [
      "CRISPR-Cas9 works like molecular scissors. The guide RNA directs the Cas9 protein to a specific DNA sequence, where it makes a precise cut.",
      "Off-target effects remain one of CRISPR's biggest challenges. The system can sometimes cut at unintended genomic locations with similar sequences.",
      "Prime editing, developed in 2019, is a more precise version that can directly write new genetic information into DNA without making double-strand breaks.",
      "Gene drives using CRISPR could spread modified genes through wild populations, potentially eliminating disease-carrying mosquitoes."]),
    ("branch", [
      "Synthetic biology goes beyond editing genes — it designs entirely new biological systems and organisms from scratch.",
      "Epigenetics shows that gene expression can be heritably changed without altering the DNA sequence itself, challenging our understanding of inheritance."]),
    ("pivot", [
      "While CRISPR edits the code of life, neural networks learn to read and interpret it, with AI models now predicting protein structures from genetic sequences."])]),
  ("dark-matter", [
    ("deeper", [
      "WIMPs (Weakly Interacting Massive Particles) are the leading dark matter candidates. Despite decades of searching, none have been directly detected.",
      "Galaxy rotation curves provided the first strong evidence for dark matter. Stars at the edges of galaxies orbit faster than visible matter alone can explain.",
      "The Bullet Cluster, a collision of two galaxy clusters, provided direct observational evidence that dark matter exists separately from normal matter.",
      "Axions are hypothetical ultralight particles that could account for dark matter. Several experiments worldwide are searching for them."]),
    ("branch", [
      "The Cosmic Microwave Background is the afterglow of the Big Bang, carrying a precise map of the universe when it was only 380,000 years old.",
      "The Hubble Tension refers to the discrepancy between different measurements of the universe's expansion rate, potentially pointing to new physics."]),
    ("pivot", [
      "From the unseen universe to the unseen genome: like dark matter, much of our DNA was once considered 'junk' until its regulatory roles were discovered."])]),
  ("climate-science", [
    ("deeper", [
      "The greenhouse effect is essential for life — without it, Earth's average temperature would be about -18°C. Human activities have intensified this natural process.",
      "Ice cores from Antarctica contain air bubbles that record atmospheric conditions going back 800,000 years, showing a clear correlation between CO2 and temperature.",
      "Climate models divide Earth's atmosphere into grid cells and simulate physical processes. Modern models can reproduce historical climate changes with remarkable accuracy.",
      "Thermohaline circulation, the global ocean conveyor belt, distributes heat around the planet. Its potential disruption is one of climate change's most concerning tipping points."]),
    ("branch", [
      "Ocean acidification, sometimes called 'the other CO2 problem', threatens marine ecosystems as absorbed carbon dioxide lowers seawater pH.",
      "Geoengineering proposals range from injecting aerosols into the stratosphere to reflect sunlight, to capturing carbon dioxide directly from the air."]),
    ("pivot", [
      "Climate models and neural networks share surprising similarities — both use complex mathematical systems to find patterns in massive datasets."])]),
  ("neural-networks", [
    ("deeper", [
      "Backpropagation is the algorithm that makes deep learning possible. It efficiently computes how much each connection contributes to the network's errors.",
      "Transformers revolutionized AI by introducing the attention mechanism, allowing models to weigh the importance of different parts of the input simultaneously.",
      "The attention mechanism lets a model focus on relevant parts of an input sequence. In language, this means understanding that 'it' in a sentence refers to a specific noun.",
      "Gradient descent optimizes neural networks by iteratively adjusting weights in the direction that most reduces the error, like a ball rolling downhill."]),
    ("branch", [
      "Reinforcement learning trains agents through trial and error, using rewards and penalties. It's behind game-playing AIs and robotic control systems.",
      "Generative AI creates new content — text, images, music, code — by learning statistical patterns from massive training datasets."]),
    ("pivot", [
      "Both neural networks and quantum computers process information in fundamentally non-classical ways, leading researchers to explore quantum machine learning."])])
]

/-- `GENERIC_POOL` from `content_engine.py`: strategy → `{label}`/`{slug}` templates. -/
def GENERIC_POOL : List (String × List String) := [
  ("deeper", [
    "{label} is a fascinating field that continues to evolve. Researchers are uncovering new insights that challenge our previous understanding.",
    "The deeper you look into {label}, the more complexity emerges. What seems simple on the surface reveals layers of interconnected phenomena.",
    "Recent advances in {label} have opened new avenues for research and practical applications that were previously considered impossible."]),
  ("branch", [
    "{label} connects to many neighboring fields. These interdisciplinary connections often lead to the most surprising discoveries.",
    "Related fields offer fresh perspectives on {label}, revealing unexpected parallels and shared underlying principles."]),
  ("pivot", [
    "Stepping back from {label}, entirely different scientific domains offer striking analogies and cross-pollination of ideas.",
    "Science's greatest breakthroughs often come from connecting seemingly unrelated fields. Moving from {label} to a new domain can spark unexpected insights."])
]

/-- `str.format(label=..., slug=...)` on the generic templates. -/
def pyFormat (t label slug : String) : String :=
  (t.replace "{label}" label).replace "{slug}" slug

/-- `_pick_text` from `content_engine.py`, with the `random.choice`
outcome supplied as an index into the available pool. -/
def pick_text (g : TopicGraph) (topic_id strategy : String)
    (used_texts : List String) (choiceIdx : ℕ) : String :=
  let pool := assocD (assocD TOPIC_POOLS topic_id []) strategy []
  let pool := if pool.isEmpty then
      (assocD GENERIC_POOL strategy (assocD GENERIC_POOL "deeper" [])).map
        (fun t => pyFormat t (labelFor g topic_id) topic_id)
    else pool
  let available := pool.filter (fun t => !used_texts.contains t)
  let available := if available.isEmpty then pool else available
  available.getD (choiceIdx % available.length)
    ("Exploring " ++ topic_id.replace "-" " " ++ ".")

/-- `_media_role_for_type` from `content_engine.py`. -/
def media_role_for_type (media_type : String) : String :=
  match media_type with
  | "unsplash" => "visual"
  | "wikipedia_image" => "visual"
  | "wikimedia" => "diagram"
  | "reddit" => "discussion"
  | "xkcd" => "humor"
  | "meme" => "humor"
  | "tweet" => "social"
  | _ => "visual"

/-- `_text_role_for_media` from `content_engine.py`. -/
def text_role_for_media (media_type : String) : String :=
  match media_type with
  | "unsplash" => "explanation"
  | "wikipedia_image" => "explanation"
  | "wikimedia" => "caption"
  | "reddit" => "context"
  | "xkcd" => "funfact"
  | "meme" => "funfact"
  | "tweet" => "context"
  | _ => "explanation"

/-- `generate_mock_media` from `content_engine.py`: the placeholder media
payload templates (unknown types fall back to the unsplash template). -/
def generate_mock_media (media_type topic_label : String) : Val :=
  let topic_slug := slugify topic_label
  let unsplashT := vdict [
    ("url", vstr ("https://images.unsplash.com/placeholder-" ++ topic_slug ++ "?w=1080&h=720")),
    ("source", vstr "Unsplash"),
    ("attribution", vstr ("Photo related to " ++ topic_label ++ " on Unsplash")),
    ("width", vint 1080),
    ("height", vint 720)]
  match media_type with
  | "wikipedia_image" => vdict [
      ("url", vstr ("https://upload.wikimedia.org/placeholder-" ++ topic_slug ++ ".jpg")),
      ("source", vstr "Wikipedia"),
      ("attribution", vstr ("Image from Wikipedia article: " ++ topic_label)),
      ("width", vint 800),
      ("height", vint 600)]
  | "wikimedia" => vdict [
      ("url", vstr ("https://upload.wikimedia.org/commons/placeholder-" ++ topic_slug ++ "-diagram.svg")),
      ("source", vstr "Wikimedia Commons"),
      ("attribution", vstr ("Diagram from Wikimedia Commons: " ++ topic_label)),
      ("width", vint 1200),
      ("height", vint 900),
      ("description", vstr ("Scientific diagram illustrating " ++ topic_label))]
  | "reddit" => vdict [
      ("url", vstr ("https://reddit.com/r/science/placeholder-" ++ topic_slug)),
      ("source", vstr "r/science"),
      ("attribution", vstr ("Discussion about " ++ topic_label ++ " on r/science")),
      ("width", vnone),
      ("height", vnone),
      ("title", vstr ("Fascinating new research on " ++ topic_label)),
      ("score", vint 1542)]
  | "xkcd" => vdict [
      ("url", vstr ("https://imgs.xkcd.com/comics/placeholder-" ++ topic_slug ++ ".png")),
      ("source", vstr "xkcd"),
      ("attribution", vstr ("xkcd comic related to " ++ topic_label)),
      ("width", vint 740),
      ("height", vint 420),
      ("alt_text", vstr ("A humorous take on " ++ topic_label)),
      ("title", vstr ("xkcd: " ++ topic_label))]
  | "meme" => vdict [
      ("url", vstr ("https://i.imgflip.com/placeholder-" ++ topic_slug ++ ".jpg")),
      ("source", vstr "Imgflip"),
      ("attribution", vstr ("Science meme about " ++ topic_label)),
      ("width", vint 500),
      ("height", vint 500)]
  | "tweet" => vdict [
      ("url", vstr ("https://twitter.com/sciencemagazine/status/placeholder-" ++ topic_slug)),
      ("source", vstr "Twitter/X"),
      ("attribution", vstr "@sciencemagazine"),
      ("width", vnone),
      ("height", vnone),
      ("text", vstr ("Exciting developments in " ++ topic_label ++ " research! New findings suggest...")),
      ("likes", vint 234),
      ("retweets", vint 87)]
  | _ => unsplashT

/-! ### Mock content assembly -/

/-- `_uid(prefix)`: a short unique id with an optional prefix, the random
`uuid4().hex[:8]` part supplied as `short`. -/
def uid (pre : String) (short : String) : String :=
  if pre = "" then short else pre ++ "-" ++ short

/-- The random/unique sources consumed by one `generate_content_blocks`
call: the uuid shorts (3 per group, in call order), the `random.choice`
indices and `random.shuffle` outcomes (1 per group), and the
`random.sample` outcome for next-node suggestions. -/
structure Oracles where
  shorts : ℕ → String
  choices : ℕ → ℕ
  shuffles : ℕ → List String
  sample3 : List GNode → List GNode

/-- The text block built for one group. -/
def mkTextBlock (short text_content group_id media_type : String) : Val :=
  vdict [
    ("id", vstr (uid "text" short)),
    ("type", vstr "text"),
    ("content", vstr text_content),
    ("group_id", vstr group_id),
    ("group_role", vstr (text_role_for_media media_type))]

/-- The media block built for one group. -/
def mkMediaBlock (short media_type label group_id : String) : Val :=
  vdict [
    ("id", vstr (uid media_type short)),
    ("type", vstr media_type),
    ("content", vstr (label ++ " — " ++ media_type ++ " content")),
    ("group_id", vstr group_id),
    ("group_role", vstr (media_role_for_type media_type)),
    ("media", generate_mock_media media_type label)]

/-- The group loop of `generate_content_blocks`: for each group draw a
group id, the next media kind, a text paragraph (avoiding repeats via
`used`), and emit the text/media block pair.  `i` is the group index
(uuid shorts `3i`, `3i+1`, `3i+2`; choice/shuffle `i`). -/
def genGroups (g : TopicGraph) (o : Oracles) (topic_id main_topic strategy : String) :
    ℕ → ℕ → Tracker → List String → Option (List Val)
  | 0, _, _, _ => some []
  | count + 1, i, tr, used =>
    match next_type tr (o.shuffles i) with
    | none => none
    | some (media_type, tr2) =>
      let group_id := uid "grp" (o.shorts (3 * i))
      let text_content := pick_text g main_topic strategy used (o.choices i)
      match genGroups g o topic_id main_topic strategy count (i + 1) tr2
          (text_content :: used) with
      | none => none
      | some rest =>
        some (mkTextBlock (o.shorts (3 * i + 1)) text_content group_id media_type
          :: mkMediaBlock (o.shorts (3 * i + 2)) media_type (labelFor g topic_id) group_id
          :: rest)

/-- The next-node selection of `generate_content_blocks`: the subtopics
for the active strategy minus visited; when empty, retry the strategies
`deeper`, `branch`, `pivot` in that fixed order (keeping the last —
possibly empty — result). -/
def mockSuggest (g : TopicGraph) (main_topic strategy : String)
    (visited : List String) : List GNode :=
  let first := get_subtopic_nodes g main_topic strategy visited
  if first.isEmpty then
    let d := get_subtopic_nodes g main_topic "deeper" visited
    if !d.isEmpty then d
    else
      let b := get_subtopic_nodes g main_topic "branch" visited
      if !b.isEmpty then b
      else get_subtopic_nodes g main_topic "pivot" visited
  else first

/-- A graph node as the dict the Python graph module hands out. -/
def gnodeVal (n : GNode) : Val :=
  vdict [("id", vstr n.id), ("label", vstr n.label), ("description", vstr n.descr)]

/-- `generate_content_blocks` from `content_engine.py` (mock path):
groups of text/media block pairs plus next-node suggestions (sampled
down to 3 when more are available). -/
def generate_content_blocks (g : TopicGraph) (o : Oracles)
    (topic_id strategy : String) (visited_nodes : List String)
    (num_groups : ℕ) : Option (List Val × List Val) :=
  let main_topic := resolveMain g topic_id
  match genGroups g o topic_id main_topic strategy num_groups 0 (mkTracker none) [] with
  | none => none
  | some blocks =>
    let next_node_list := mockSuggest g main_topic strategy visited_nodes
    let final := if 3 < next_node_list.length then o.sample3 next_node_list
      else next_node_list
    some (blocks, final.map gnodeVal)

/-! ### Validation -/

/-- `VALID_GROUP_ROLES_TEXT` (a Python set; membership only). -/
def VALID_GROUP_ROLES_TEXT : List String := ["explanation", "caption", "context", "funfact"]

/-- `VALID_GROUP_ROLES_MEDIA`. -/
def VALID_GROUP_ROLES_MEDIA : List String := ["visual", "diagram", "discussion", "humor", "social"]

/-- `VALID_STRATEGIES`. -/
def VALID_STRATEGIES : List String := ["deeper", "branch", "pivot"]

/-- `x in VALID_GROUP_ROLES_TEXT` for an arbitrary value (non-strings are
never members). -/
def isTextRole : Val → Bool
  | vstr s => VALID_GROUP_ROLES_TEXT.contains s
  | _ => false

def isMediaRole : Val → Bool
  | vstr s => VALID_GROUP_ROLES_MEDIA.contains s
  | _ => false

def isStrategyVal : Val → Bool
  | vstr s => VALID_STRATEGIES.contains s
  | _ => false

/-- `block_type in MEDIA_TYPES` for an arbitrary value. -/
def isMediaTypeVal : Val → Bool
  | vstr s => MEDIA_TYPES.contains s
  | _ => false

/-- `isinstance(x, (int, float))` — Python bools are ints. -/
def isNumberVal : Val → Bool
  | vint _ => true
  | vnum _ => true
  | vbool _ => true
  | _ => false

/-- `score < 0 or score > 1` on a numeric value. -/
def scoreOutOfRange : Val → Bool
  | vint n => decide (n < 0) || decide (1 < n)
  | vnum q => decide (q < 0) || decide (1 < q)
  | _ => false

/-- The role-vocabulary check shared by the text and media branches of
`validate_content_block`: an error exactly when the present `group_role`
is truthy and outside the given vocabulary. -/
def roleErrors (d : List (String × Val)) (kind : String) (vocab : Val → Bool) :
    List String :=
  match dictGet d "group_role" with
  | none => []
  | some r =>
    if r.truthy && !vocab r then
      ["Invalid " ++ kind ++ " group_role: " ++ pyStr r]
    else []

/-- The `media` payload checks of the media branch. -/
def mediaErrors (d : List (String × Val)) : List String :=
  match dictGet d "media" with
  | none => ["Media block missing 'media' key"]
  | some (vdict md) =>
    (if (dictGet md "url").isNone then ["Media block missing 'url'"] else []) ++
      (if (dictGet md "source").isNone then ["Media block missing 'source'"] else [])
  | some _ => ["Media block 'media' is not a dict"]

/-- `validate_content_block` from `content_engine.py`. -/
def validate_content_block (block : Val) : List String :=
  match block with
  | vdict d =>
    ((["id", "type", "content", "group_id", "group_role"].filter
        (fun k => (dictGet d k).isNone)).map (fun k => "Missing key: " ++ k)) ++
      (match dictGet d "type" with
       | none => []
       | some bt =>
         if bt = vstr "text" then roleErrors d "text" isTextRole
         else if isMediaTypeVal bt then
           roleErrors d "media" isMediaRole ++ mediaErrors d
         else ["Unknown block type: " ++ pyStr bt])
  | _ => ["Block is not a dict"]

/-- The per-block error reporting of the response validators. -/
def blockListErrors (blocks : List Val) : List String :=
  (blocks.enum.map (fun p => (validate_content_block p.2).map
    (fun err => "content_blocks[" ++ toString p.1 ++ "]: " ++ err))).join

/-- The `content_blocks` checks shared by both response validators. -/
def contentBlocksErrors (d : List (String × Val)) : List String :=
  match dictGet d "content_blocks" with
  | none => []
  | some (vlist blocks) => blockListErrors blocks
  | some _ => ["content_blocks is not a list"]

/-- The `next_nodes` checks shared by both response validators. -/
def nextNodesErrors (d : List (String × Val)) : List String :=
  match dictGet d "next_nodes" with
  | none => []
  | some (vlist _) => []
  | some _ => ["next_nodes is not a list"]

/-- The `strategy_used` check of `validate_response`. -/
def strategyErrors (d : List (String × Val)) : List String :=
  match dictGet d "strategy_used" with
  | none => []
  | some s => if !isStrategyVal s then ["Invalid strategy: " ++ pyStr s] else []

/-- The `engagement_score` checks of `validate_response`. -/
def scoreErrors (d : List (String × Val)) : List String :=
  match dictGet d "engagement_score" with
  | none => []
  | some sc =>
    if !isNumberVal sc then ["engagement_score is not a number"]
    else if scoreOutOfRange sc then ["engagement_score out of range: " ++ pyStr sc]
    else []

/-- The required-key checks of the response validators. -/
def missingKeyErrors (d : List (String × Val)) (ks : List String) : List String :=
  (ks.filter (fun k => (dictGet d k).isNone)).map (fun k => "Missing key: " ++ k)

/-- `validate_response` from `content_engine.py`. -/
def validate_response (response : Val) : List String :=
  match response with
  | vdict d =>
    missingKeyErrors d ["content_blocks", "next_nodes", "strategy_used", "engagement_score"]
      ++ strategyErrors d ++ scoreErrors d ++ contentBlocksErrors d ++ nextNodesErrors d
  | _ => ["Response is not a dict"]

/-- The graph-payload checks of `validate_initial_response`. -/
def graphErrors (d : List (String × Val)) : List String :=
  match dictGet d "graph" with
  | none => []
  | some (vdict gd) =>
    (match dictGet gd "nodes" with
     | none => ["graph missing 'nodes'"]
     | some (vlist nodes) =>
       if nodes.isEmpty then ["graph 'nodes' must be a non-empty list"] else []
     | some _ => ["graph 'nodes' must be a non-empty list"]) ++
      (match dictGet gd "edges" with
       | none => ["graph missing 'edges'"]
       | some _ => [])
  | some _ => ["graph is not a dict"]

/-- The `strategy_used` check of `validate_initial_response`. -/
def initialStrategyErrors (d : List (String × Val)) : List String :=
  match dictGet d "strategy_used" with
  | none => []
  | some s =>
    if s ≠ vstr "deeper" then
      ["Initial strategy should be 'deeper', got: " ++ pyStr s]
    else []

/-- `validate_initial_response` from `content_engine.py`. -/
def validate_initial_response (response : Val) : List String :=
  match response with
  | vdict d =>
    missingKeyErrors d ["content_blocks", "graph", "next_nodes", "strategy_used"]
      ++ initialStrategyErrors d ++ graphErrors d ++ contentBlocksErrors d
      ++ nextNodesErrors d
  | _ => ["Response is not a dict"]

/-! ### Live path (Claude orchestration) -/

/-- `generate_content_with_claude` from `content_engine.py`, reduced to
its observable decision: the orchestrator client's availability and the
outcome of its `generate_json` call (the prompt strings do not affect
the returned plan).  Returns the plan only when the call produced a
truthy dict containing a `"groups"` key. -/
def generate_content_with_claude (clientAvailable : Bool) (gjson : Option Val) :
    Option Val :=
  if !clientAvailable then none
  else
    match gjson with
    | some r => if r.truthy && r.isDict && (r.get "groups").isSome then some r else none
    | none => none

/-- `_resolve_media` from `content_engine.py`: the provider call's
outcome is supplied as `apiResult` (`none` models a missing client, a
raised exception, or an empty provider answer); a failed call is
replaced by the mock payload. -/
def resolve_media (media_request : Val) (topic_label : String)
    (apiResult : Option Val) : Option Val :=
  if !media_request.truthy || !media_request.isDict then none
  else
    let media_type := pyStr ((media_request.get "type").getD (vstr "unsplash"))
    match apiResult with
    | some r => some r
    | none => some (generate_mock_media media_type topic_label)

/-- Build the live text block of one plan group. -/
def mkLiveTextBlock (short : String) (text : Val) (group_id : String) (role : Val) : Val :=
  vdict [
    ("id", vstr (uid "text" short)),
    ("type", vstr "text"),
    ("content", text),
    ("group_id", vstr group_id),
    ("group_role", role)]

/-- Build the live media block of one plan group. -/
def mkLiveMediaBlock (short media_type : String) (topic_label : String)
    (group_id : String) (role : Val) (media_data : Val) : Val :=
  vdict [
    ("id", vstr (uid media_type short)),
    ("type", vstr media_type),
    ("content", vstr (topic_label ++ " — " ++ media_type ++ " content")),
    ("group_id", vstr group_id),
    ("group_role", role),
    ("media", media_data)]

/-- The oracle inputs of the live path: the mock oracles (for the
fallback), the uuid shorts of the live loop, and each group's external
provider outcome. -/
structure LiveOracles where
  mock : Oracles
  liveShorts : ℕ → String
  apiResults : ℕ → Option Val

/-- The plan-execution loop of `generate_content_blocks_live`: one
text and/or media block per group.  `none` models the `TypeError` /
`AttributeError` the Python loop would raise when a group or a truthy
`media_request` is not a dict. -/
def execGroups (lo : LiveOracles) (topic_label : String) :
    List Val → ℕ → Option (List Val)
  | [], _ => some []
  | group :: rest, i =>
    match group with
    | vdict gd =>
      let group_id := uid "grp" (lo.liveShorts (3 * i))
      let text := (dictGet gd "text").getD vnone
      let textBlocks :=
        if text.truthy then
          [mkLiveTextBlock (lo.liveShorts (3 * i + 1)) text group_id
            ((dictGet gd "group_role_text").getD (vstr "explanation"))]
        else []
      let media_request := (dictGet gd "media_request").getD vnone
      if media_request.truthy then
        match media_request with
        | vdict _ =>
          let media_type := pyStr ((media_request.get "type").getD (vstr "unsplash"))
          let media_data :=
            (resolve_media media_request topic_label (lo.apiResults i)).getD vnone
          match execGroups lo topic_label rest (i + 1) with
          | none => none
          | some out =>
            some (textBlocks ++
              [mkLiveMediaBlock (lo.liveShorts (3 * i + 2)) media_type topic_label
                group_id ((dictGet gd "group_role_media").getD (vstr "visual"))
                media_data] ++ out)
        | _ => none
      else
        match execGroups lo topic_label rest (i + 1) with
        | none => none
        | some out => some (textBlocks ++ out)
    | _ => none

/-- Python-hashable values: a `list` or `dict` entry of the plan's
`next_nodes` makes the membership test `nid not in visited_set` raise
`TypeError: unhashable type`. -/
def hashableVal : Val → Bool
  | vlist _ => false
  | vdict _ => false
  | _ => true

/-- The proposed-id filter of the live path's next-node selection
(`for nid in claude_next: if nid not in visited_set: ...`): a string id
is kept when unvisited and resolving in the topic graph; other hashable
values pass the membership test but miss the (spec-modelled) `get_node`
lookup; an unhashable `list`/`dict` entry makes the membership test
raise `TypeError`, modelled as `none`. -/
def claudeFilteredSrc (g : TopicGraph) (visited : List String) :
    List Val → Option (List Val)
  | [] => some []
  | nid :: rest =>
    match nid with
    | vlist _ => none
    | vdict _ => none
    | vstr s =>
      (claudeFilteredSrc g visited rest).map (fun acc =>
        if !visited.contains s then
          match g.getNode s with
          | some n => vdict [("id", vstr n.id), ("label", vstr n.label)] :: acc
          | none => acc
        else acc)
    | _ => claudeFilteredSrc g visited rest

/-- The graph fallback of the live path: when a (truthy) main topic
resolves, the *active* strategy's subtopics minus visited, truncated to
the first 3; otherwise nothing. -/
def liveGraphFallback (g : TopicGraph) (topic_id strategy : String)
    (visited : List String) : List Val :=
  match (if g.mainTopics.contains topic_id then some topic_id
    else g.findTopic topic_id) with
  | some mt =>
    if mt ≠ "" then
      ((get_subtopic_nodes g mt strategy visited).take 3).map
        (fun n => vdict [("id", vstr n.id), ("label", vstr n.label)])
    else []
  | none => []

/-- The next-node selection of the live path: the orchestrator's proposed
ids filtered as above (propagating the `TypeError` of an unhashable
entry); when the filter result is empty, the graph fallback. -/
def liveNextNodes (g : TopicGraph) (topic_id strategy : String)
    (visited : List String) (claude_next : List Val) : Option (List Val) :=
  (claudeFilteredSrc g visited claude_next).map (fun next_nodes =>
    if next_nodes.isEmpty then liveGraphFallback g topic_id strategy visited
    else next_nodes)

/-- `generate_content_blocks_live` from `content_engine.py`: try the
orchestrator; on failure fall back entirely to the mock path (with the
default 4 groups); on success execute the plan's groups and next-node
proposals. -/
def generate_content_blocks_live (g : TopicGraph) (lo : LiveOracles)
    (topic_id strategy : String) (visited_nodes : List String)
    (clientAvailable : Bool) (gjson : Option Val) : Option (List Val × List Val) :=
  let topic_label := labelFor g topic_id
  match generate_content_with_claude clientAvailable gjson with
  | none => generate_content_blocks g lo.mock topic_id strategy visited_nodes 4
  | some plan =>
    match (plan.get "groups").getD (vlist []) with
    | vlist groups =>
      match execGroups lo topic_label groups 0 with
      | none => none
      | some blocks =>
        match (plan.get "next_nodes").getD (vlist []) with
        | vlist claude_next =>
          match liveNextNodes g topic_id strategy visited_nodes claude_next with
          | none => none
          | some next_nodes => some (blocks, next_nodes)
        | _ => none
    | _ => none

/-- An empty topic graph, for witnesses. -/
def trivialGraph : TopicGraph :=
  ⟨fun _ => none, [], fun _ _ => [], fun _ => none⟩

/-- Trivial oracles, for witnesses. -/
def trivialOracles : Oracles :=
  ⟨fun _ => "", fun _ => 0, fun _ => [], fun l => l⟩

def trivialLive : LiveOracles := ⟨trivialOracles, fun _ => "", fun _ => none⟩

/-- A generate-style response is valid: required keys present, a valid
strategy, a numeric engagement score in `[0,1]`, `content_blocks` a list
of blocks that all pass block-level validation, and `next_nodes` a list. -/
def generate_response_valid (r : Val) : Prop :=
  ∃ d, r = vdict d ∧
    (∀ k ∈ (["content_blocks", "next_nodes", "strategy_used",
        "engagement_score"] : List String), (dictGet d k).isSome = true) ∧
    (∀ s, dictGet d "strategy_used" = some s → isStrategyVal s = true) ∧
    (∀ sc, dictGet d "engagement_score" = some sc →
      isNumberVal sc = true ∧ scoreOutOfRange sc = false) ∧
    (∀ cb, dictGet d "content_blocks" = some cb →
      ∃ bl, cb = vlist bl ∧ ∀ b ∈ bl, validate_content_block b = []) ∧
    (∀ nn, dictGet d "next_nodes" = some nn → ∃ l, nn = vlist l)

/-- An initial-style response is valid: required keys present, strategy
exactly `"deeper"`, a graph dict with a non-empty `nodes` list and an
`edges` key, blocks all valid, and `next_nodes` a list. -/
def initial_response_valid (r : Val) : Prop :=
  ∃ d, r = vdict d ∧
    (∀ k ∈ (["content_blocks", "graph", "next_nodes",
        "strategy_used"] : List String), (dictGet d k).isSome = true) ∧
    (∀ s, dictGet d "strategy_used" = some s → s = vstr "deeper") ∧
    (∀ gv, dictGet d "graph" = some gv → ∃ gd, gv = vdict gd ∧
      (∃ nodes, dictGet gd "nodes" = some (vlist nodes) ∧ nodes ≠ []) ∧
      (dictGet gd "edges").isSome = true) ∧
    (∀ cb, dictGet d "content_blocks" = some cb →
      ∃ bl, cb = vlist bl ∧ ∀ b ∈ bl, validate_content_block b = []) ∧
    (∀ nn, dictGet d "next_nodes" = some nn → ∃ l, nn = vlist l)

/-- The id entry of a block dict. -/
def idOf (b : Val) : Option Val := b.get "id"

/-- The shape of a block emitted by group `n` of the mock generator. -/
def blockShapeOf (g : TopicGraph) (o : Oracles) (topic_id : String) (n : ℕ)
    (b : Val) : Prop :=
  (∃ txt gid mt, b = mkTextBlock (o.shorts (3 * n + 1)) txt gid mt) ∨
  (∃ mt gid, mt ∈ MEDIA_TYPES ∧
    b = mkMediaBlock (o.shorts (3 * n + 2)) mt (labelFor g topic_id) gid)

/-- "Retry until a non-empty candidate set is found or all are
exhausted", as the claim words the fallback. -/
def firstNonempty : List (List GNode) → List GNode
  | [] => []
  | l :: rest => if l.isEmpty then firstNonempty rest else l

/-- The concrete short-id supply of the C4/C5 witnesses: `k` letters `a`
(injective, dash-free). -/
def witShorts (k : ℕ) : String := String.mk (List.replicate k 'a')

/-- Concrete oracles satisfying every randomness hypothesis. -/
def witOracles : Oracles :=
  ⟨witShorts, fun _ => 0, fun _ => MEDIA_TYPES, fun l => l.take 3⟩

/-- The claim's wording of the live-path filter: the orchestrator's
proposed list, keeping ids that are unvisited and exist in the graph. -/
def proposedFiltered (g : TopicGraph) (visited : List String)
    (claude_next : List Val) : List Val :=
  claude_next.filterMap (fun nid =>
    match nid with
    | vstr s =>
      if !visited.contains s then
        (g.getNode s).map (fun n => vdict [("id", vstr n.id), ("label", vstr n.label)])
      else none
    | _ => none)

/-- A two-node graph for the C7 theorems: main topic `t` whose only
subtopics live under the `branch` strategy. -/
def cexGraph : TopicGraph where
  getNode := fun s =>
    if s = "t" then some ⟨"t", "T", "topic"⟩
    else if s = "b" then some ⟨"b", "B", "branch node"⟩
    else none
  mainTopics := ["t"]
  subtopics := fun m s =>
    if m = "t" ∧ s = "branch" then [⟨"b", "B", "branch node"⟩] else []
  findTopic := fun _ => none

/-- An orchestrator plan with no groups and no proposed next nodes. -/
def cexPlan : Val := vdict [("groups", vlist []), ("next_nodes", vlist [])]

def cexLiveOracles : LiveOracles :=
  ⟨witOracles, witShorts, fun _ => none⟩

/-! ## Theorems

Invariants and claim-level properties of the definitions above; the
theorems named `C1_...` through `C10_...` settle the corresponding
specification claims, with `_witness` theorems instantiating their
hypotheses at concrete inputs. -/

theorem imax_eq_max (a b : ℤ) : imax a b = max a b := (max_def a b).symm

theorem rmin_eq_min (a b : ℚ) : rmin a b = min a b := (min_def a b).symm

theorem rmax_eq_max (a b : ℚ) : rmax a b = max a b := (max_def a b).symm

theorem imax_zero_nonneg (n : ℤ) : 0 ≤ imax 0 n := by
  unfold imax; split <;> omega

theorem sanitizeField_nonneg (d : List (String × Val)) (k : String) (dflt : ℤ) :
    0 ≤ sanitizeField d k dflt :=
  imax_zero_nonneg _

theorem sanitize_nonneg (v : Val) :
    0 ≤ (sanitize_time_data v).total_time_on_node_ms ∧
    0 ≤ (sanitize_time_data v).scroll_events ∧
    0 ≤ (sanitize_time_data v).go_deeper_clicks ∧
    0 ≤ (sanitize_time_data v).time_per_section_ms := by
  unfold sanitize_time_data
  cases v <;> simp [defaultTimeData] <;>
    · constructor
      · split <;> exact sanitizeField_nonneg ..
      refine ⟨?_, ?_, ?_⟩ <;> split <;> exact sanitizeField_nonneg ..

theorem sanitize_sections_ge_one (v : Val) :
    1 ≤ (sanitize_time_data v).sections_in_current_node := by
  unfold sanitize_time_data
  cases v <;> simp [defaultTimeData] <;> split <;> simp <;> omega

theorem sanitize_non_dict (v : Val) (h : v.isDict = false) :
    sanitize_time_data v = defaultTimeData := by
  unfold sanitize_time_data
  cases v <;> simp_all [Val.isDict]

theorem score_eq_claimed (v : Val) : compute_engagement_score v = claimed_score v := by
  unfold compute_engagement_score claimed_score time_factor_spec scroll_factor_spec
    click_factor_spec variance_factor_spec
  have hs : 1 ≤ (sanitize_time_data v).sections_in_current_node := sanitize_sections_ge_one v
  have hsq : (0:ℚ) < ((sanitize_time_data v).sections_in_current_node : ℚ) := by
    exact_mod_cast lt_of_lt_of_le one_pos (by exact_mod_cast hs)
  by_cases h : (0:ℤ) < (sanitize_time_data v).total_time_on_node_ms
  · have h1 : (0:ℚ) < ((sanitize_time_data v).total_time_on_node_ms : ℚ) := by exact_mod_cast h
    have h3 : 0 < ((sanitize_time_data v).total_time_on_node_ms : ℚ)
        / ((sanitize_time_data v).sections_in_current_node : ℚ) := div_pos h1 hsq
    simp only [h, h1, hsq, h3, and_self, if_true, if_pos]
  · have h1 : ¬ (0:ℚ) < ((sanitize_time_data v).total_time_on_node_ms : ℚ) := by exact_mod_cast h
    simp only [h, h1, false_and, if_false, if_neg, not_false_iff]

theorem rmin_one_of_le {x : ℚ} (h : 1 ≤ x) : rmin 1 x = 1 := by
  unfold rmin; simp [h]

theorem score_zero : compute_engagement_score allZeroSample = 0 := by
  have h : sanitize_time_data allZeroSample = defaultTimeData := by decide
  unfold compute_engagement_score
  rw [h]
  norm_num [defaultTimeData, rmin, rmax, round4, roundHalfEven]

theorem score_saturated (v : Val) (hsat : saturatedTD (sanitize_time_data v)) :
    compute_engagement_score v = 1 := by
  obtain ⟨h1, h2, h3, h4⟩ := hsat
  have hs : 1 ≤ (sanitize_time_data v).sections_in_current_node := sanitize_sections_ge_one v
  have hsq : (0:ℚ) < ((sanitize_time_data v).sections_in_current_node : ℚ) := by
    exact_mod_cast lt_of_lt_of_le one_pos (by exact_mod_cast hs)
  have htq : (0:ℚ) < ((sanitize_time_data v).total_time_on_node_ms : ℚ) := by
    have : (0:ℤ) < (sanitize_time_data v).total_time_on_node_ms := by omega
    exact_mod_cast this
  unfold compute_engagement_score
  have e1 : rmin 1 (((sanitize_time_data v).total_time_on_node_ms : ℚ) / 60000) = 1 := by
    apply rmin_one_of_le
    rw [le_div_iff (by norm_num)]
    calc (1:ℚ) * 60000 = 60000 := by norm_num
    _ ≤ ((sanitize_time_data v).total_time_on_node_ms : ℚ) := by exact_mod_cast h1
  have e2 : rmin 1 (((sanitize_time_data v).scroll_events : ℚ) / 10) = 1 := by
    apply rmin_one_of_le
    rw [le_div_iff (by norm_num)]
    calc (1:ℚ) * 10 = 10 := by norm_num
    _ ≤ ((sanitize_time_data v).scroll_events : ℚ) := by exact_mod_cast h2
  have e3 : rmin 1 (((sanitize_time_data v).go_deeper_clicks : ℚ) * (0.5 : ℚ)) = 1 := by
    apply rmin_one_of_le
    have : (2:ℚ) ≤ ((sanitize_time_data v).go_deeper_clicks : ℚ) := by exact_mod_cast h3
    linarith
  have hexp : (0:ℚ) < ((sanitize_time_data v).total_time_on_node_ms : ℚ)
      / ((sanitize_time_data v).sections_in_current_node : ℚ) := div_pos htq hsq
  have e4 : (if 0 < ((sanitize_time_data v).total_time_on_node_ms : ℚ) ∧
        0 < ((sanitize_time_data v).sections_in_current_node : ℚ) then
      if 0 < ((sanitize_time_data v).total_time_on_node_ms : ℚ)
          / ((sanitize_time_data v).sections_in_current_node : ℚ) then
        rmin 1 (((sanitize_time_data v).time_per_section_ms : ℚ)
          / (((sanitize_time_data v).total_time_on_node_ms : ℚ)
            / ((sanitize_time_data v).sections_in_current_node : ℚ)))
      else 0
    else (0:ℚ)) = 1 := by
    rw [if_pos ⟨htq, hsq⟩, if_pos hexp]
    apply rmin_one_of_le
    rw [le_div_iff hexp, one_mul, div_le_iff hsq]
    have : ((sanitize_time_data v).total_time_on_node_ms : ℚ) ≤
        ((sanitize_time_data v).time_per_section_ms : ℚ)
          * ((sanitize_time_data v).sections_in_current_node : ℚ) := by exact_mod_cast h4
    linarith
  simp only [e1, e2, e3, e4]
  norm_num [rmin, rmax, round4, roundHalfEven]

theorem select_strategy_char (s : ℚ) :
    (select_strategy s = "deeper" ↔ (0.65 : ℚ) ≤ s) ∧
    (select_strategy s = "branch" ↔ (0.35 : ℚ) ≤ s ∧ s < (0.65 : ℚ)) ∧
    (select_strategy s = "pivot" ↔ s < (0.35 : ℚ)) := by
  have hdb : ("deeper" : String) ≠ "branch" := by decide
  have hdp : ("deeper" : String) ≠ "pivot" := by decide
  have hbd : ("branch" : String) ≠ "deeper" := by decide
  have hbp : ("branch" : String) ≠ "pivot" := by decide
  have hpd : ("pivot" : String) ≠ "deeper" := by decide
  have hpb : ("pivot" : String) ≠ "branch" := by decide
  unfold select_strategy
  by_cases h1 : (0.65 : ℚ) ≤ s
  · rw [if_pos h1]
    exact ⟨⟨fun _ => h1, fun _ => rfl⟩,
      ⟨fun hh => absurd hh hdb, fun hh => absurd h1 (by linarith [hh.2])⟩,
      ⟨fun hh => absurd hh hdp, fun hh => absurd h1 (by linarith)⟩⟩
  · rw [if_neg h1]
    by_cases h2 : (0.35 : ℚ) ≤ s
    · rw [if_pos h2]
      exact ⟨⟨fun hh => absurd hh hbd, fun hh => absurd hh h1⟩,
        ⟨fun _ => ⟨h2, by linarith [not_le.mp h1]⟩, fun _ => rfl⟩,
        ⟨fun hh => absurd hh hbp, fun hh => absurd h2 (by linarith)⟩⟩
    · rw [if_neg h2]
      exact ⟨⟨fun hh => absurd hh hpd, fun hh => absurd hh h1⟩,
        ⟨fun hh => absurd hh hpb, fun hh => absurd hh.1 h2⟩,
        ⟨fun _ => not_le.mp h2, fun _ => rfl⟩⟩

/-- C1: for every input (dicts or not), `compute_engagement_score` returns
the claimed weighted formula `0.30·time + 0.20·scroll + 0.30·click +
0.20·variance` of the sanitized sample, clamped to `[0,1]` and rounded to
4 decimals; the all-zero sample scores exactly `0`, and any sample
saturating every factor scores exactly `1`. -/
theorem C1_engagement_score_formula :
    (∀ v : Val, compute_engagement_score v = claimed_score v) ∧
    compute_engagement_score allZeroSample = 0 ∧
    (∀ v : Val, saturatedTD (sanitize_time_data v) → compute_engagement_score v = 1) :=
  ⟨score_eq_claimed, score_zero, score_saturated⟩

/-- Witness for C1 at the concrete saturated sample. -/
theorem C1_engagement_score_formula_witness :
    saturatedTD (sanitize_time_data satSample) ∧ compute_engagement_score satSample = 1 :=
  ⟨by decide, C1_engagement_score_formula.2.2 satSample (by decide)⟩

/-- C2: `select_strategy` returns `"deeper"` iff `score ≥ 0.65`,
`"branch"` iff `0.35 ≤ score < 0.65`, and `"pivot"` iff `score < 0.35`;
the lower band bounds are inclusive, and the function is pure and total
(it is a Lean function on `ℚ`). -/
theorem C2_select_strategy_bands :
    ∀ s : ℚ, (select_strategy s = "deeper" ↔ (0.65 : ℚ) ≤ s) ∧
      (select_strategy s = "branch" ↔ (0.35 : ℚ) ≤ s ∧ s < (0.65 : ℚ)) ∧
      (select_strategy s = "pivot" ↔ s < (0.35 : ℚ)) :=
  select_strategy_char

/-- C8: `sanitize_time_data` is total (hence never raises), and for every
input returns a sample (with exactly the six telemetry keys, by the
return type `TimeData`) whose numeric fields are non-negative, whose
`sections_in_current_node` is at least 1, and which is the all-default
sample whenever the input is not a dict. -/
theorem C8_sanitize_total_and_clamped :
    ∀ v : Val,
      0 ≤ (sanitize_time_data v).total_time_on_node_ms ∧
      0 ≤ (sanitize_time_data v).scroll_events ∧
      0 ≤ (sanitize_time_data v).go_deeper_clicks ∧
      0 ≤ (sanitize_time_data v).time_per_section_ms ∧
      1 ≤ (sanitize_time_data v).sections_in_current_node ∧
      (v.isDict = false → sanitize_time_data v = defaultTimeData) := by
  intro v
  obtain ⟨h1, h2, h3, h4⟩ := sanitize_nonneg v
  exact ⟨h1, h2, h3, h4, sanitize_sections_ge_one v, sanitize_non_dict v⟩

/-- Witness for C8 at the concrete non-dict input `None`. -/
theorem C8_sanitize_total_and_clamped_witness :
    sanitize_time_data Val.vnone = defaultTimeData :=
  (C8_sanitize_total_and_clamped Val.vnone).2.2.2.2.2 (by decide)

theorem avoidDup_of_ne (lastv : Option String) (tlen fuel : ℕ) (m : String)
    (q : List String) (h : lastv ≠ some m) :
    avoidDup lastv tlen fuel m q = (m, q) := by
  cases fuel with
  | zero => rfl
  | succ f => simp [avoidDup, h]

theorem avoidDup_rotate (l : String) (tlen fuel : ℕ) (m2 : String) (q2 : List String)
    (hm2 : l ≠ m2) (htlen : 1 < tlen) :
    avoidDup (some l) tlen (fuel + 2) l (m2 :: q2) = (m2, q2 ++ [l]) := by
  have hne : (some l : Option String) ≠ some m2 := fun hc => hm2 (Option.some.inj hc)
  have step1 : avoidDup (some l) tlen (fuel + 1 + 1) l (m2 :: q2)
      = avoidDup (some l) tlen (fuel + 1) m2 (q2 ++ [l]) := by
    simp [avoidDup, htlen]
  rw [step1, avoidDup_of_ne _ _ _ _ _ hne]

/-- One step of the tracker preserves the invariant, succeeds, and never
emits the previous kind (given `≥ 2` duplicate-free configured types and
a genuine shuffle outcome). -/
theorem next_type_spec (t : Tracker) (sh : List String)
    (hI : TrackerInv t) (hN : t.types.Nodup) (h2 : 2 ≤ t.types.length)
    (hsh : sh.Perm t.types) :
    ∃ m t2, next_type t sh = some (m, t2) ∧ t2.types = t.types ∧ TrackerInv t2 ∧
      t2.last = some m ∧ ∀ l, t.last = some l → m ≠ l := by
  obtain ⟨hqN, hqT, hlast⟩ := hI
  by_cases hq : t.queue.isEmpty
  · -- refill from the shuffle
    have hshN : sh.Nodup := hsh.nodup_iff.mpr hN
    have hlen : sh.length = t.types.length := hsh.length_eq
    obtain ⟨m, rest, rfl⟩ : ∃ m rest, sh = m :: rest := by
      cases sh with
      | nil => exact absurd hlen (by simp; omega)
      | cons a lrest => exact ⟨a, lrest, rfl⟩
    have hmem : ∀ x ∈ m :: rest, x ∈ t.types := fun x hx => hsh.mem_iff.mp hx
    have hq0 : (if t.queue.isEmpty then m :: rest else t.queue) = m :: rest := if_pos hq
    by_cases hlm : t.last = some m
    · -- head equals the previous kind: one rotation past it
      obtain ⟨m2, q2, rfl⟩ : ∃ m2 q2, rest = m2 :: q2 := by
        cases rest with
        | nil => exact absurd hlen (by simp; omega)
        | cons a lrest => exact ⟨a, lrest, rfl⟩
      have hmm2 : m ∉ m2 :: q2 := (List.nodup_cons.mp hshN).1
      have hrestN : (m2 :: q2).Nodup := (List.nodup_cons.mp hshN).2
      have hm2q : m2 ∉ q2 := (List.nodup_cons.mp hrestN).1
      have hq2N : q2.Nodup := (List.nodup_cons.mp hrestN).2
      have hm2 : m ≠ m2 := fun hc => hmm2 (hc ▸ List.mem_cons_self _ _)
      have hmq2 : m ∉ q2 := fun hc => hmm2 (List.mem_cons_of_mem _ hc)
      obtain ⟨tl, htl⟩ : ∃ tl, t.types.length = tl + 2 :=
        ⟨t.types.length - 2, by omega⟩
      have hav : avoidDup t.last t.types.length t.types.length m (m2 :: q2)
          = (m2, q2 ++ [m]) := by
        rw [hlm, htl]
        exact avoidDup_rotate m (tl + 2) tl m2 q2 hm2 (by omega)
      refine ⟨m2, ⟨t.types, q2 ++ [m], some m2⟩, ?_, rfl, ?_, rfl, ?_⟩
      · unfold next_type
        rw [hq0]
        dsimp only
        rw [hav]
      · refine ⟨?_, ?_, ?_⟩
        · refine List.Nodup.append hq2N (List.nodup_singleton m) ?_
          intro x hx hxm
          rw [List.mem_singleton.mp hxm] at hx
          exact hmq2 hx
        · intro x hx
          rcases List.mem_append.mp hx with hx | hx
          · exact hmem x (List.mem_cons_of_mem _ (List.mem_cons_of_mem _ hx))
          · rw [List.mem_singleton.mp hx]
            exact hmem m (List.mem_cons_self _ _)
        · intro l hl
          have : l = m2 := (Option.some.inj hl).symm
          subst this
          refine ⟨hmem l (List.mem_cons_of_mem _ (List.mem_cons_self _ _)), ?_⟩
          intro hc
          rcases List.mem_append.mp hc with hc | hc
          · exact hm2q hc
          · exact hm2 (List.mem_singleton.mp hc).symm
      · intro l hl
        have : l = m := by rw [hlm] at hl; exact (Option.some.inj hl).symm
        subst this
        exact fun hc => hm2 hc.symm
    · -- head already differs from the previous kind
      have hav : avoidDup t.last t.types.length t.types.length m rest = (m, rest) :=
        avoidDup_of_ne _ _ _ _ _ hlm
      refine ⟨m, ⟨t.types, rest, some m⟩, ?_, rfl, ?_, rfl, ?_⟩
      · unfold next_type
        rw [hq0]
        dsimp only
        rw [hav]
      · refine ⟨(List.nodup_cons.mp hshN).2,
          fun x hx => hmem x (List.mem_cons_of_mem _ hx), ?_⟩
        intro l hl
        have : l = m := (Option.some.inj hl).symm
        subst this
        exact ⟨hmem l (List.mem_cons_self _ _), (List.nodup_cons.mp hshN).1⟩
      · intro l hl hc
        exact hlm (by rw [hl, hc])
  · -- queue still nonempty: its head cannot be the previous kind
    have hne : t.queue ≠ [] := fun hc => hq (by simp [hc])
    obtain ⟨m, rest, hqe⟩ := List.exists_cons_of_ne_nil hne
    have hq0 : (if t.queue.isEmpty then sh else t.queue) = m :: rest := by
      rw [if_neg hq, hqe]
    have hlm : t.last ≠ some m := by
      intro hc
      exact (hlast m hc).2 (by rw [hqe]; exact List.mem_cons_self _ _)
    have hav : avoidDup t.last t.types.length t.types.length m rest = (m, rest) :=
      avoidDup_of_ne _ _ _ _ _ hlm
    have hqN' : (m :: rest).Nodup := hqe ▸ hqN
    refine ⟨m, ⟨t.types, rest, some m⟩, ?_, rfl, ?_, rfl, ?_⟩
    · unfold next_type
      rw [hq0]
      dsimp only
      rw [hav]
    · refine ⟨(List.nodup_cons.mp hqN').2,
        fun x hx => hqT x (by rw [hqe]; exact List.mem_cons_of_mem _ hx), ?_⟩
      intro l hl
      have : l = m := (Option.some.inj hl).symm
      subst this
      exact ⟨hqT l (by rw [hqe]; exact List.mem_cons_self _ _),
        (List.nodup_cons.mp hqN').1⟩
    · intro l hl hc
      exact hlm (by rw [hl, hc])

theorem avoidDup_tlen_le_one (lastv : Option String) (tlen fuel : ℕ) (m : String)
    (q : List String) (h : tlen ≤ 1) :
    avoidDup lastv tlen fuel m q = (m, q) := by
  cases fuel with
  | zero => rfl
  | succ f =>
    have hcond : ¬(lastv = some m ∧ 1 < tlen) := fun hc => absurd hc.2 (by omega)
    simp only [avoidDup, if_neg hcond]

/-- Along any run from an invariant-satisfying state with `≥ 2`
duplicate-free types and genuine shuffles, the run succeeds and no two
adjacent emitted kinds are equal (and the first emission differs from the
state's previous kind). -/
theorem runTracker_chain (shs : List (List String)) :
    ∀ t : Tracker, TrackerInv t → t.types.Nodup → 2 ≤ t.types.length →
      (∀ sh ∈ shs, sh.Perm t.types) →
      ∃ ms t2, runTracker t shs = some (ms, t2) ∧ List.Chain' (· ≠ ·) ms ∧
        ∀ l m, t.last = some l → ms.head? = some m → m ≠ l := by
  induction shs with
  | nil =>
    intro t _ _ _ _
    exact ⟨[], t, rfl, List.chain'_nil, fun l m _ hm => by cases hm⟩
  | cons sh rest ih =>
    intro t hI hN h2 hall
    obtain ⟨m, t2, hstep, hty, hI2, hlast2, hne⟩ :=
      next_type_spec t sh hI hN h2 (hall sh (List.mem_cons_self _ _))
    obtain ⟨ms, t3, hrun, hchain, hhead⟩ :=
      ih t2 hI2 (by rw [hty]; exact hN) (by rw [hty]; exact h2)
        (fun s hs => by rw [hty]; exact hall s (List.mem_cons_of_mem _ hs))
    refine ⟨m :: ms, t3, ?_, ?_, ?_⟩
    · simp [runTracker, hstep, hrun]
    · rw [List.chain'_cons']
      exact ⟨fun y hy => (hhead m y hlast2 hy).symm, hchain⟩
    · intro l m2 hl hm2
      have : m2 = m := by
        simp only [List.head?_cons, Option.some.injEq] at hm2
        exact hm2.symm
      subst this
      exact hne l hl

/-- With a single configured kind every call emits that kind. -/
theorem next_type_single (k : String) (t : Tracker) (sh : List String)
    (hty : t.types = [k]) (hq : ∀ x ∈ t.queue, x = k) (hsh : sh.Perm [k]) :
    ∃ t2, next_type t sh = some (k, t2) ∧ t2.types = [k] ∧ ∀ x ∈ t2.queue, x = k := by
  have hshe : sh = [k] := List.perm_singleton.mp hsh
  have htl : t.types.length ≤ 1 := by rw [hty]; simp
  by_cases hqe : t.queue.isEmpty
  · have hq0 : (if t.queue.isEmpty then sh else t.queue) = [k] := by rw [if_pos hqe, hshe]
    refine ⟨⟨t.types, [], some k⟩, ?_, hty, by intro x hx; cases hx⟩
    unfold next_type
    rw [hq0]
    dsimp only
    rw [avoidDup_tlen_le_one _ _ _ _ _ htl]
  · have hne : t.queue ≠ [] := fun hc => hqe (by simp [hc])
    obtain ⟨m, rest, hqe2⟩ := List.exists_cons_of_ne_nil hne
    have hmk : m = k := hq m (by rw [hqe2]; exact List.mem_cons_self _ _)
    have hq0 : (if t.queue.isEmpty then sh else t.queue) = m :: rest := by
      rw [if_neg hqe, hqe2]
    refine ⟨⟨t.types, rest, some m⟩, ?_, hty, ?_⟩
    · unfold next_type
      rw [hq0]
      dsimp only
      rw [avoidDup_tlen_le_one _ _ _ _ _ htl, hmk]
    · intro x hx
      exact hq x (by rw [hqe2]; exact List.mem_cons_of_mem _ hx)

/-- With a single configured kind, every run emits only that kind (and in
particular terminates: the duplicate-avoidance loop is fuel-bounded). -/
theorem runTracker_single (k : String) (shs : List (List String)) :
    ∀ t : Tracker, t.types = [k] → (∀ x ∈ t.queue, x = k) →
      (∀ sh ∈ shs, sh.Perm [k]) →
      ∃ t2, runTracker t shs = some (List.replicate shs.length k, t2) := by
  induction shs with
  | nil => intro t _ _ _; exact ⟨t, rfl⟩
  | cons sh rest ih =>
    intro t hty hq hall
    obtain ⟨t2, hstep, hty2, hq2⟩ :=
      next_type_single k t sh hty hq (hall sh (List.mem_cons_self _ _))
    obtain ⟨t3, hrun⟩ := ih t2 hty2 hq2 (fun s hs => hall s (List.mem_cons_of_mem _ hs))
    exact ⟨t3, by simp [runTracker, hstep, hrun, List.replicate_succ]⟩

/-- C3 counterexample: a tracker configured with `["a", "a", "b"]` — a
list with (at least) two distinct media kinds — emits
`a, b, a, b, a, a` under genuine reshuffle outcomes: the last two
consecutive emissions are equal, refuting the claim as stated for
configurations that repeat a kind. -/
theorem C3_counterexample_duplicate_config :
    (∀ sh ∈ cexShuffles, sh.Perm ["a", "a", "b"]) ∧
    runTracker (mkTracker (some ["a", "a", "b"])) cexShuffles
      = some (["a", "b", "a", "b", "a", "a"], ⟨["a", "a", "b"], [], some "a"⟩) ∧
    ¬ List.Chain' (· ≠ ·) ["a", "b", "a", "b", "a", "a"] :=
  ⟨by decide, by decide, by simp [List.chain'_cons]⟩

/-- C3 (amended: the configured kind list must be duplicate-free, as the
spec's "configured kind set" suggests): with `≥ 2` distinct kinds, every
run of `next_type` calls succeeds — over all reshuffle outcomes — with no
two consecutive emitted kinds equal; with a one-member kind set, every
call returns that member (the duplicate-avoidance loop being bounded by
the attempt counter, it always terminates). -/
theorem C3_media_variety_no_adjacent_repeat :
    (∀ (types : List String) (shs : List (List String)),
        types.Nodup → 2 ≤ types.length → (∀ sh ∈ shs, sh.Perm types) →
        ∃ ms t2, runTracker (mkTracker (some types)) shs = some (ms, t2) ∧
          List.Chain' (· ≠ ·) ms) ∧
    (∀ (k : String) (shs : List (List String)),
        (∀ sh ∈ shs, sh.Perm [k]) →
        ∃ t2, runTracker (mkTracker (some [k])) shs
          = some (List.replicate shs.length k, t2)) := by
  constructor
  · intro types shs hN hlen hall
    obtain ⟨a, as, rfl⟩ : ∃ a as, types = a :: as := by
      cases types with
      | nil => simp at hlen
      | cons a as => exact ⟨a, as, rfl⟩
    have hmk : mkTracker (some (a :: as)) = ⟨a :: as, a :: as, none⟩ := rfl
    obtain ⟨ms, t2, hrun, hchain, _⟩ :=
      runTracker_chain shs ⟨a :: as, a :: as, none⟩
        ⟨hN, fun x hx => hx, fun l hl => by cases hl⟩ hN hlen hall
    exact ⟨ms, t2, by rw [hmk]; exact hrun, hchain⟩
  · intro k shs hall
    have hmk : mkTracker (some [k]) = ⟨[k], [k], none⟩ := rfl
    obtain ⟨t2, hrun⟩ :=
      runTracker_single k shs ⟨[k], [k], none⟩ rfl
        (fun x hx => List.mem_singleton.mp hx) hall
    exact ⟨t2, by rw [hmk]; exact hrun⟩

/-- Witness for C3 at concrete kind lists and shuffle outcomes. -/
theorem C3_media_variety_no_adjacent_repeat_witness :
    (∃ ms t2, runTracker (mkTracker (some ["x", "y"])) [["x", "y"], ["y", "x"]]
        = some (ms, t2) ∧ List.Chain' (· ≠ ·) ms) ∧
    (∃ t2, runTracker (mkTracker (some ["z"])) [["z"], ["z"]]
        = some (List.replicate 2 "z", t2)) :=
  ⟨C3_media_variety_no_adjacent_repeat.1 ["x", "y"] [["x", "y"], ["y", "x"]]
      (by decide) (by decide) (by decide),
    C3_media_variety_no_adjacent_repeat.2 "z" [["z"], ["z"]] (by decide)⟩

/-- A dict that contains some key is non-empty, hence truthy. -/
theorem dict_with_key_truthy (dl : List (String × Val)) (k : String)
    (h : (dictGet dl k).isSome = true) : (vdict dl).truthy = true := by
  cases dl with
  | nil => simp [dictGet] at h
  | cons a rest => simp [truthy, List.isEmpty]

theorem gcwc_none (ca : Bool) (gj : Option Val)
    (h : ca = false ∨ gj = none ∨
      ∀ r, gj = some r → ¬(r.isDict = true ∧ (r.get "groups").isSome = true)) :
    generate_content_with_claude ca gj = none := by
  unfold generate_content_with_claude
  rcases h with h | h | h
  · subst h; rfl
  · subst h; cases ca <;> rfl
  · cases gj with
    | none => cases ca <;> rfl
    | some r =>
      cases ca with
      | false => rfl
      | true =>
        have hr := h r rfl
        have hcond : (r.truthy && r.isDict && (r.get "groups").isSome) = false := by
          by_cases hd : r.isDict = true
          · by_cases hg : (r.get "groups").isSome = true
            · exact absurd ⟨hd, hg⟩ hr
            · have hg2 : (r.get "groups").isSome = false := by
                cases hgv : (r.get "groups").isSome
                · rfl
                · exact absurd hgv hg
              simp [hg2]
          · have hd2 : r.isDict = false := by
              cases hdv : r.isDict
              · rfl
              · exact absurd hdv hd
            simp [hd2]
        simp [hcond]

/-- C6: whenever the orchestrator client is unavailable, or its call
fails, or its result is not a dict containing a `"groups"` key, the live
path returns exactly the mock path's result on the same arguments. -/
theorem C6_live_falls_back_to_mock (g : TopicGraph) (lo : LiveOracles)
    (topic_id strategy : String) (visited_nodes : List String)
    (clientAvailable : Bool) (gjson : Option Val)
    (h : clientAvailable = false ∨ gjson = none ∨
      ∀ r, gjson = some r → ¬(r.isDict = true ∧ (r.get "groups").isSome = true)) :
    generate_content_blocks_live g lo topic_id strategy visited_nodes
        clientAvailable gjson
      = generate_content_blocks g lo.mock topic_id strategy visited_nodes 4 := by
  unfold generate_content_blocks_live
  rw [gcwc_none clientAvailable gjson h]

/-- Witness for C6: an unavailable client at concrete arguments. -/
theorem C6_live_falls_back_to_mock_witness :
    generate_content_blocks_live trivialGraph trivialLive "t" "deeper" [] false none
      = generate_content_blocks trivialGraph trivialOracles "t" "deeper" [] 4 :=
  C6_live_falls_back_to_mock trivialGraph trivialLive "t" "deeper" [] false none
    (Or.inl rfl)

theorem str_ne_of_head (a b : String) (h : a.data.head? ≠ b.data.head?) : a ≠ b :=
  fun hc => h (by rw [hc])

theorem head_append_str (p s : String) (c : Char) (h : p.data.head? = some c) :
    (p ++ s).data.head? = some c := by
  rw [String.data_append, List.head?_append, h]
  rfl

theorem roleErrors_falsy (d : List (String × Val)) (kind : String)
    (vocab : Val → Bool) (r : Val) (hr : dictGet d "group_role" = some r)
    (ht : r.truthy = false) : roleErrors d kind vocab = [] := by
  unfold roleErrors
  rw [hr]
  simp [ht]

theorem mem_missing_part (d : List (String × Val)) (ks : List String) (x : String)
    (h : x ∈ (ks.filter (fun k => (dictGet d k).isNone)).map
      (fun k => "Missing key: " ++ k)) :
    ∃ k ∈ ks, (dictGet d k).isNone = true ∧ x = "Missing key: " ++ k := by
  obtain ⟨k, hk, rfl⟩ := List.mem_map.mp h
  have h2 := List.mem_filter.mp hk
  exact ⟨k, h2.1, by simpa using h2.2, rfl⟩

theorem mediaErrors_mem (d : List (String × Val)) (x : String)
    (h : x ∈ mediaErrors d) :
    x = "Media block missing 'media' key" ∨ x = "Media block 'media' is not a dict" ∨
    x = "Media block missing 'url'" ∨ x = "Media block missing 'source'" := by
  unfold mediaErrors at h
  split at h
  · simp at h; tauto
  · rcases List.mem_append.mp h with h2 | h2 <;> split at h2 <;> simp at h2 <;> tauto
  · simp at h; tauto

/-- C10: when `group_role` is present but falsy (empty string, `None`,
`0`, ...), `validate_content_block` reports neither a missing-key error
for `group_role` nor any invalid-role error, for text and media blocks
alike; in particular a text block whose `group_role` is `""` validates
cleanly. -/
theorem C10_falsy_group_role_skips_role_check (d : List (String × Val)) (r : Val)
    (hr : dictGet d "group_role" = some r) (ht : r.truthy = false) :
    "Missing key: group_role" ∉ validate_content_block (vdict d) ∧
    (∀ x, ("Invalid text group_role: " ++ x) ∉ validate_content_block (vdict d)) ∧
    (∀ x, ("Invalid media group_role: " ++ x) ∉ validate_content_block (vdict d)) ∧
    validate_content_block (vdict [("id", vstr "text-1"), ("type", vstr "text"),
      ("content", vstr "c"), ("group_id", vstr "g"), ("group_role", vstr "")]) = [] := by
  have hmain : ∀ x, x ∈ validate_content_block (vdict d) →
      (∃ k ∈ (["id", "type", "content", "group_id", "group_role"] : List String),
        (dictGet d k).isNone = true ∧ x = "Missing key: " ++ k) ∨
      (x = "Media block missing 'media' key" ∨ x = "Media block 'media' is not a dict" ∨
        x = "Media block missing 'url'" ∨ x = "Media block missing 'source'") ∨
      (∃ bt, x = "Unknown block type: " ++ pyStr bt) := by
    intro x hx
    unfold validate_content_block at hx
    rcases List.mem_append.mp hx with h1 | h2
    · exact Or.inl (mem_missing_part d _ x h1)
    · split at h2
      · simp at h2
      · rename_i bt hbt
        split at h2
        · rw [roleErrors_falsy d "text" isTextRole r hr ht] at h2
          simp at h2
        · split at h2
          · rw [roleErrors_falsy d "media" isMediaRole r hr ht] at h2
            simp at h2
            exact Or.inr (Or.inl (mediaErrors_mem d x h2))
          · simp at h2
            exact Or.inr (Or.inr ⟨bt, h2⟩)
  refine ⟨?_, ?_, ?_, by decide⟩
  · intro hx
    rcases hmain _ hx with ⟨k, hk, hnone, hkx⟩ | h | ⟨bt, hbt⟩
    · simp at hk
      rcases hk with rfl | rfl | rfl | rfl | rfl
      · exact absurd hkx (by decide)
      · exact absurd hkx (by decide)
      · exact absurd hkx (by decide)
      · exact absurd hkx (by decide)
      · rw [hr] at hnone; simp at hnone
    · rcases h with h | h | h | h <;> exact absurd h (by decide)
    · exact absurd hbt.symm (str_ne_of_head _ _ (by
        rw [head_append_str "Unknown block type: " (pyStr bt) 'U' (by decide)]
        decide))
  · intro x hx
    rcases hmain _ hx with ⟨k, hk, hnone, hkx⟩ | h | ⟨bt, hbt⟩
    · have hne : ("Invalid text group_role: " ++ x) ≠ "Missing key: " ++ k :=
        str_ne_of_head _ _ (by
          rw [head_append_str "Invalid text group_role: " x 'I' (by decide),
            head_append_str "Missing key: " k 'M' (by decide)]
          decide)
      exact hne hkx
    · rcases h with h | h | h | h <;>
        exact absurd h (str_ne_of_head _ _ (by
          rw [head_append_str "Invalid text group_role: " x 'I' (by decide)]
          decide))
    · exact absurd hbt (str_ne_of_head _ _ (by
        rw [head_append_str "Invalid text group_role: " x 'I' (by decide),
          head_append_str "Unknown block type: " (pyStr bt) 'U' (by decide)]
        decide))
  · intro x hx
    rcases hmain _ hx with ⟨k, hk, hnone, hkx⟩ | h | ⟨bt, hbt⟩
    · have hne : ("Invalid media group_role: " ++ x) ≠ "Missing key: " ++ k :=
        str_ne_of_head _ _ (by
          rw [head_append_str "Invalid media group_role: " x 'I' (by decide),
            head_append_str "Missing key: " k 'M' (by decide)]
          decide)
      exact hne hkx
    · rcases h with h | h | h | h <;>
        exact absurd h (str_ne_of_head _ _ (by
          rw [head_append_str "Invalid media group_role: " x 'I' (by decide)]
          decide))
    · exact absurd hbt (str_ne_of_head _ _ (by
        rw [head_append_str "Invalid media group_role: " x 'I' (by decide),
          head_append_str "Unknown block type: " (pyStr bt) 'U' (by decide)]
        decide))

/-- Witness for C10 at a concrete media block carrying a falsy role. -/
theorem C10_falsy_group_role_skips_role_check_witness :
    "Missing key: group_role" ∉ validate_content_block (vdict [("id", vstr "m-1"),
      ("type", vstr "meme"), ("content", vstr "c"), ("group_id", vstr "g"),
      ("group_role", vnone),
      ("media", vdict [("url", vstr "u"), ("source", vstr "s")])]) :=
  (C10_falsy_group_role_skips_role_check [("id", vstr "m-1"),
    ("type", vstr "meme"), ("content", vstr "c"), ("group_id", vstr "g"),
    ("group_role", vnone),
    ("media", vdict [("url", vstr "u"), ("source", vstr "s")])] vnone
    (by decide) (by decide)).1

theorem isNone_false_iff (o : Option Val) : ¬(o.isNone = true) ↔ o.isSome = true := by
  cases o <;> simp

theorem missingKeyErrors_eq_nil (d : List (String × Val)) (ks : List String) :
    missingKeyErrors d ks = [] ↔ ∀ k ∈ ks, (dictGet d k).isSome = true := by
  unfold missingKeyErrors
  rw [List.map_eq_nil, List.filter_eq_nil]
  constructor
  · intro h k hk
    exact (isNone_false_iff _).mp (by simpa using h k hk)
  · intro h k hk
    simpa using (isNone_false_iff _).mpr (h k hk)

theorem strategyErrors_eq_nil (d : List (String × Val)) :
    strategyErrors d = [] ↔
      ∀ s, dictGet d "strategy_used" = some s → isStrategyVal s = true := by
  unfold strategyErrors
  cases h : dictGet d "strategy_used" with
  | none => simp [h]
  | some s =>
    cases hv : isStrategyVal s <;> simp [h, hv]

theorem scoreErrors_eq_nil (d : List (String × Val)) :
    scoreErrors d = [] ↔
      ∀ sc, dictGet d "engagement_score" = some sc →
        isNumberVal sc = true ∧ scoreOutOfRange sc = false := by
  unfold scoreErrors
  cases h : dictGet d "engagement_score" with
  | none => simp [h]
  | some sc =>
    cases hn : isNumberVal sc <;> cases hr : scoreOutOfRange sc <;> simp [h, hn, hr]

theorem blockListErrors_eq_nil (blocks : List Val) :
    blockListErrors blocks = [] ↔ ∀ b ∈ blocks, validate_content_block b = [] := by
  unfold blockListErrors
  rw [List.join_eq_nil]
  constructor
  · intro h b hb
    have hb2 : b ∈ blocks.enum.map Prod.snd := by rw [List.enum_map_snd]; exact hb
    obtain ⟨p, hp, hps⟩ := List.mem_map.mp hb2
    have h3 := h _ (List.mem_map_of_mem _ hp)
    rw [hps] at h3
    exact List.map_eq_nil.mp h3
  · intro h ls hls
    obtain ⟨p, hp, rfl⟩ := List.mem_map.mp hls
    rw [List.map_eq_nil]
    refine h p.2 ?_
    have : p.2 ∈ blocks.enum.map Prod.snd := List.mem_map_of_mem _ hp
    rwa [List.enum_map_snd] at this

theorem contentBlocksErrors_eq_nil (d : List (String × Val)) :
    contentBlocksErrors d = [] ↔
      ∀ cb, dictGet d "content_blocks" = some cb →
        ∃ bl, cb = vlist bl ∧ ∀ b ∈ bl, validate_content_block b = [] := by
  unfold contentBlocksErrors
  cases h : dictGet d "content_blocks" with
  | none => simp [h]
  | some cb =>
    cases cb with
    | vlist blocks =>
      rw [blockListErrors_eq_nil]
      constructor
      · intro hb cb2 hcb2
        exact ⟨blocks, (Option.some.inj hcb2).symm, hb⟩
      · intro hb
        obtain ⟨bl, hbl, hv⟩ := hb (vlist blocks) rfl
        rwa [← Val.vlist.inj hbl] at hv
    | vnone => simp [h]
    | vbool b => simp [h]
    | vint n => simp [h]
    | vnum q => simp [h]
    | vstr s => simp [h]
    | vdict d2 => simp [h]

theorem nextNodesErrors_eq_nil (d : List (String × Val)) :
    nextNodesErrors d = [] ↔
      ∀ nn, dictGet d "next_nodes" = some nn → ∃ l, nn = vlist l := by
  unfold nextNodesErrors
  cases h : dictGet d "next_nodes" with
  | none => simp [h]
  | some nn =>
    cases nn with
    | vlist l => simp [h]
    | vnone => simp [h]
    | vbool b => simp [h]
    | vint n => simp [h]
    | vnum q => simp [h]
    | vstr s => simp [h]
    | vdict d2 => simp [h]

theorem initialStrategyErrors_eq_nil (d : List (String × Val)) :
    initialStrategyErrors d = [] ↔
      ∀ s, dictGet d "strategy_used" = some s → s = vstr "deeper" := by
  unfold initialStrategyErrors
  cases h : dictGet d "strategy_used" with
  | none => simp [h]
  | some s =>
    by_cases hv : s = vstr "deeper"
    · simp [h, hv]
    · simp [h, hv]

theorem graphErrors_eq_nil (d : List (String × Val)) :
    graphErrors d = [] ↔
      ∀ gv, dictGet d "graph" = some gv → ∃ gd, gv = vdict gd ∧
        (∃ nodes, dictGet gd "nodes" = some (vlist nodes) ∧ nodes ≠ []) ∧
        (dictGet gd "edges").isSome = true := by
  unfold graphErrors
  cases h : dictGet d "graph" with
  | none => simp [h]
  | some gv =>
    cases gv with
    | vdict gd =>
      rw [List.append_eq_nil]
      constructor
      · rintro ⟨h1, h2⟩ gv2 hgv2
        refine ⟨gd, (Option.some.inj hgv2).symm, ?_, ?_⟩
        · revert h1
          cases hn : dictGet gd "nodes" with
          | none => simp
          | some nv =>
            cases nv with
            | vlist nodes =>
              cases he : nodes.isEmpty with
              | true => simp [he]
              | false =>
                intro _
                exact ⟨nodes, rfl, by simpa using he⟩
            | vnone => simp
            | vbool b => simp
            | vint n => simp
            | vnum q => simp
            | vstr s => simp
            | vdict d2 => simp
        · revert h2
          cases he : dictGet gd "edges" with
          | none => simp
          | some e => simp
      · intro hall
        obtain ⟨gd2, hgd2, ⟨nodes, hnodes, hne⟩, hedges⟩ := hall (vdict gd) rfl
        have heq : gd2 = gd := Val.vdict.inj hgd2.symm
        rw [heq] at hnodes hedges
        constructor
        · rw [hnodes]
          have : nodes.isEmpty = false := by
            cases nodes with
            | nil => exact absurd rfl hne
            | cons a l => rfl
          simp [this]
        · revert hedges
          cases he : dictGet gd "edges" with
          | none => simp
          | some e => simp
    | vnone => simp [h]
    | vbool b => simp [h]
    | vint n => simp [h]
    | vnum q => simp [h]
    | vstr s => simp [h]
    | vlist l => simp [h]

/-- C9 (amended: validity additionally requires `content_blocks` and
`next_nodes` to be lists, and the initial graph payload to be a dict that
also carries an `edges` key — conditions the validators check but the
claim omits): both validators are total Lean functions (never raise,
always return a list), and return the empty list exactly on valid
responses. -/
theorem C9_validators_return_empty_iff_valid :
    (∀ r : Val, validate_response r = [] ↔ generate_response_valid r) ∧
    (∀ r : Val, validate_initial_response r = [] ↔ initial_response_valid r) := by
  constructor
  · intro r
    cases r with
    | vdict d =>
      unfold validate_response
      rw [List.append_eq_nil, List.append_eq_nil, List.append_eq_nil,
        List.append_eq_nil, missingKeyErrors_eq_nil, strategyErrors_eq_nil,
        scoreErrors_eq_nil, contentBlocksErrors_eq_nil, nextNodesErrors_eq_nil]
      unfold generate_response_valid
      constructor
      · rintro ⟨⟨⟨⟨h1, h2⟩, h3⟩, h4⟩, h5⟩
        exact ⟨d, rfl, h1, h2, h3, h4, h5⟩
      · rintro ⟨d2, hd, h1, h2, h3, h4, h5⟩
        have : d2 = d := Val.vdict.inj hd.symm
        subst this
        exact ⟨⟨⟨⟨h1, h2⟩, h3⟩, h4⟩, h5⟩
    | vnone => simp [validate_response, generate_response_valid]
    | vbool b => simp [validate_response, generate_response_valid]
    | vint n => simp [validate_response, generate_response_valid]
    | vnum q => simp [validate_response, generate_response_valid]
    | vstr s => simp [validate_response, generate_response_valid]
    | vlist l => simp [validate_response, generate_response_valid]
  · intro r
    cases r with
    | vdict d =>
      unfold validate_initial_response
      rw [List.append_eq_nil, List.append_eq_nil, List.append_eq_nil,
        List.append_eq_nil, missingKeyErrors_eq_nil, initialStrategyErrors_eq_nil,
        graphErrors_eq_nil, contentBlocksErrors_eq_nil, nextNodesErrors_eq_nil]
      unfold initial_response_valid
      constructor
      · rintro ⟨⟨⟨⟨h1, h2⟩, h3⟩, h4⟩, h5⟩
        exact ⟨d, rfl, h1, h2, h3, h4, h5⟩
      · rintro ⟨d2, hd, h1, h2, h3, h4, h5⟩
        have : d2 = d := Val.vdict.inj hd.symm
        subst this
        exact ⟨⟨⟨⟨h1, h2⟩, h3⟩, h4⟩, h5⟩
    | vnone => simp [validate_initial_response, initial_response_valid]
    | vbool b => simp [validate_initial_response, initial_response_valid]
    | vint n => simp [validate_initial_response, initial_response_valid]
    | vnum q => simp [validate_initial_response, initial_response_valid]
    | vstr s => simp [validate_initial_response, initial_response_valid]
    | vlist l => simp [validate_initial_response, initial_response_valid]

/-- C9 counterexample: a response with all required keys, a valid
strategy, a numeric score in `[0,1]`, and an (empty) list of valid
content blocks — every condition the claim lists — is still rejected,
because `next_nodes` is not a list (a check the claim's validity
description omits). -/
theorem C9_counterexample_next_nodes_not_list :
    (∀ k ∈ (["content_blocks", "next_nodes", "strategy_used",
        "engagement_score"] : List String),
      ((vdict [("content_blocks", vlist []), ("next_nodes", vint 5),
        ("strategy_used", vstr "deeper"), ("engagement_score", vint 1)]).get k).isSome
        = true) ∧
    isStrategyVal (vstr "deeper") = true ∧
    isNumberVal (vint 1) = true ∧ scoreOutOfRange (vint 1) = false ∧
    (∀ b ∈ ([] : List Val), validate_content_block b = []) ∧
    validate_response (vdict [("content_blocks", vlist []), ("next_nodes", vint 5),
      ("strategy_used", vstr "deeper"), ("engagement_score", vint 1)])
      = ["next_nodes is not a list"] := by
  refine ⟨by decide, by decide, by decide, by decide, ?_, by decide⟩
  intro b hb
  cases hb

theorem takeWhile_append_nodash (a b : List Char) (ha : '-' ∉ a) :
    (a ++ '-' :: b).takeWhile (fun c => c != '-') = a := by
  induction a with
  | nil => simp [List.takeWhile]
  | cons x xs ih =>
    have hx : x ≠ '-' := fun hc => ha (hc ▸ List.mem_cons_self _ _)
    have hxs : '-' ∉ xs := fun hc => ha (List.mem_cons_of_mem _ hc)
    simp [List.takeWhile_cons, hx, ih hxs]

theorem append_dash_inj (l1 r1 l2 r2 : List Char) (h1 : '-' ∉ r1) (h2 : '-' ∉ r2)
    (he : l1 ++ '-' :: r1 = l2 ++ '-' :: r2) : r1 = r2 := by
  have h1r : '-' ∉ r1.reverse := by simpa using h1
  have h2r : '-' ∉ r2.reverse := by simpa using h2
  have he2 : r1.reverse ++ '-' :: l1.reverse = r2.reverse ++ '-' :: l2.reverse := by
    have h3 := congrArg List.reverse he
    simpa [List.reverse_append] using h3
  have h4 := congrArg (List.takeWhile (fun c => c != '-')) he2
  rw [takeWhile_append_nodash _ _ h1r, takeWhile_append_nodash _ _ h2r] at h4
  exact List.reverse_injective h4

theorem string_eq_of_data (s t : String) (h : s.data = t.data) : s = t := by
  cases s; cases t
  simp only at h
  rw [h]

theorem uid_data (p s : String) (hp : p ≠ "") :
    (uid p s).data = p.data ++ '-' :: s.data := by
  unfold uid
  rw [if_neg hp, String.data_append, String.data_append]
  simp

theorem uid_empty (s : String) : uid "" s = s := by simp [uid]

theorem uid_ne_of_ne (p1 p2 s1 s2 : String) (h1 : '-' ∉ s1.data) (h2 : '-' ∉ s2.data)
    (hne : s1 ≠ s2) : uid p1 s1 ≠ uid p2 s2 := by
  by_cases hp1 : p1 = "" <;> by_cases hp2 : p2 = ""
  · subst hp1; subst hp2
    rw [uid_empty, uid_empty]
    exact hne
  · subst hp1
    rw [uid_empty]
    intro hc
    apply h1
    have hd : s1.data = p2.data ++ '-' :: s2.data := by
      have h3 := congrArg String.data hc
      rwa [uid_data p2 s2 hp2] at h3
    rw [hd]
    exact List.mem_append.mpr (Or.inr (List.mem_cons_self _ _))
  · subst hp2
    rw [uid_empty]
    intro hc
    apply h2
    have hd : s2.data = p1.data ++ '-' :: s1.data := by
      have h3 := congrArg String.data hc
      rw [uid_data p1 s1 hp1] at h3
      exact h3.symm
    rw [hd]
    exact List.mem_append.mpr (Or.inr (List.mem_cons_self _ _))
  · intro hc
    have hd := congrArg String.data hc
    rw [uid_data p1 s1 hp1, uid_data p2 s2 hp2] at hd
    exact hne (string_eq_of_data _ _ (append_dash_inj _ _ _ _ h1 h2 hd))

theorem idOf_mkTextBlock (s txt gid mt : String) :
    idOf (mkTextBlock s txt gid mt) = some (vstr (uid "text" s)) := rfl

theorem idOf_mkMediaBlock (s mt label gid : String) :
    idOf (mkMediaBlock s mt label gid) = some (vstr (uid mt s)) := rfl

theorem avoidDup_pick (lastv : Option String) (tlen : ℕ) :
    ∀ (fuel : ℕ) (m : String) (q : List String),
      (avoidDup lastv tlen fuel m q).1 ∈ m :: q ∧
      ∀ x ∈ (avoidDup lastv tlen fuel m q).2, x ∈ m :: q := by
  intro fuel
  induction fuel with
  | zero =>
    intro m q
    exact ⟨List.mem_cons_self _ _, fun x hx => List.mem_cons_of_mem _ hx⟩
  | succ f ih =>
    intro m q
    by_cases hc : lastv = some m ∧ 1 < tlen
    · cases q with
      | nil =>
        have heq : avoidDup lastv tlen (f + 1) m [] = avoidDup lastv tlen f m [] := by
          simp [avoidDup, hc]
        rw [heq]
        exact ih m []
      | cons m2 q2 =>
        have heq : avoidDup lastv tlen (f + 1) m (m2 :: q2)
            = avoidDup lastv tlen f m2 (q2 ++ [m]) := by
          simp [avoidDup, hc]
        rw [heq]
        obtain ⟨ih1, ih2⟩ := ih m2 (q2 ++ [m])
        constructor
        · rcases List.mem_cons.mp ih1 with h | h
          · rw [h]
            exact List.mem_cons_of_mem _ (List.mem_cons_self _ _)
          · rcases List.mem_append.mp h with h2 | h2
            · exact List.mem_cons_of_mem _ (List.mem_cons_of_mem _ h2)
            · rw [List.mem_singleton.mp h2]
              exact List.mem_cons_self _ _
        · intro x hx
          rcases List.mem_cons.mp (ih2 x hx) with h | h
          · rw [h]
            exact List.mem_cons_of_mem _ (List.mem_cons_self _ _)
          · rcases List.mem_append.mp h with h2 | h2
            · exact List.mem_cons_of_mem _ (List.mem_cons_of_mem _ h2)
            · rw [List.mem_singleton.mp h2]
              exact List.mem_cons_self _ _
    · have heq : avoidDup lastv tlen (f + 1) m q = (m, q) := by
        simp [avoidDup, hc]
      rw [heq]
      exact ⟨List.mem_cons_self _ _, fun x hx => List.mem_cons_of_mem _ hx⟩

/-- Weak invariant of `next_type` used by the block generator: with the
default (nonempty) `MEDIA_TYPES` configuration and genuine shuffles the
call succeeds and always emits a configured media kind. -/
theorem next_type_weak (t : Tracker) (sh : List String)
    (hty : t.types = MEDIA_TYPES) (hq : ∀ x ∈ t.queue, x ∈ MEDIA_TYPES)
    (hsh : sh.Perm MEDIA_TYPES) :
    ∃ m t2, next_type t sh = some (m, t2) ∧ t2.types = MEDIA_TYPES ∧
      (∀ x ∈ t2.queue, x ∈ MEDIA_TYPES) ∧ m ∈ MEDIA_TYPES := by
  have hq0mem : ∀ x ∈ (if t.queue.isEmpty then sh else t.queue), x ∈ MEDIA_TYPES := by
    intro x hx
    by_cases hqe : t.queue.isEmpty
    · rw [if_pos hqe] at hx
      exact hsh.mem_iff.mp hx
    · rw [if_neg hqe] at hx
      exact hq x hx
  obtain ⟨m, rest, hq0⟩ : ∃ m rest,
      (if t.queue.isEmpty then sh else t.queue) = m :: rest := by
    cases hq0e : (if t.queue.isEmpty then sh else t.queue) with
    | nil =>
      exfalso
      by_cases hqe : t.queue.isEmpty
      · rw [if_pos hqe] at hq0e
        have := hsh.length_eq
        rw [hq0e] at this
        simp [MEDIA_TYPES] at this
      · rw [if_neg hqe] at hq0e
        exact hqe (by simp [hq0e])
    | cons a l => exact ⟨a, l, rfl⟩
  obtain ⟨hpick, hrest⟩ := avoidDup_pick t.last t.types.length t.types.length m rest
  refine ⟨(avoidDup t.last t.types.length t.types.length m rest).1,
    ⟨t.types, (avoidDup t.last t.types.length t.types.length m rest).2,
      some (avoidDup t.last t.types.length t.types.length m rest).1⟩, ?_, hty, ?_, ?_⟩
  · unfold next_type
    rw [hq0]
  · intro x hx
    exact hq0mem _ (hq0 ▸ hrest x hx)
  · exact hq0mem _ (hq0 ▸ hpick)

/-- The group loop succeeds (given genuine shuffles), every block it
returns is a text/media block of some group in range, and — when the
short-id supply never collides across indices — the block ids are
pairwise distinct. -/
theorem genGroups_full (g : TopicGraph) (o : Oracles)
    (topic_id main_topic strategy : String)
    (hsh : ∀ j, (o.shuffles j).Perm MEDIA_TYPES) :
    ∀ (count i : ℕ) (tr : Tracker) (used : List String),
      tr.types = MEDIA_TYPES → (∀ x ∈ tr.queue, x ∈ MEDIA_TYPES) →
      ∃ blocks, genGroups g o topic_id main_topic strategy count i tr used
          = some blocks ∧
        (∀ b ∈ blocks, ∃ n, i ≤ n ∧ n < i + count ∧ blockShapeOf g o topic_id n b) ∧
        ((∀ p1 p2 j1 j2, j1 ≠ j2 → uid p1 (o.shorts j1) ≠ uid p2 (o.shorts j2)) →
          (blocks.map idOf).Nodup) := by
  intro count
  induction count with
  | zero =>
    intro i tr used _ _
    exact ⟨[], rfl, by simp, fun _ => by simp⟩
  | succ c ih =>
    intro i tr used hty hq
    obtain ⟨m, tr2, hstep, hty2, hq2, hm⟩ := next_type_weak tr (o.shuffles i) hty hq (hsh i)
    obtain ⟨rest, hrest, hshape, hnodup⟩ := ih (i + 1) tr2
      (pick_text g main_topic strategy used (o.choices i) :: used) hty2 hq2
    refine ⟨mkTextBlock (o.shorts (3 * i + 1))
        (pick_text g main_topic strategy used (o.choices i))
        (uid "grp" (o.shorts (3 * i))) m
      :: mkMediaBlock (o.shorts (3 * i + 2)) m (labelFor g topic_id)
        (uid "grp" (o.shorts (3 * i)))
      :: rest, ?_, ?_, ?_⟩
    · show genGroups g o topic_id main_topic strategy (c + 1) i tr used = _
      unfold genGroups
      rw [hstep]
      dsimp only
      rw [hrest]
    · intro b hb
      rcases List.mem_cons.mp hb with rfl | hb2
      · exact ⟨i, le_refl i, by omega, Or.inl ⟨_, _, _, rfl⟩⟩
      rcases List.mem_cons.mp hb2 with rfl | hb3
      · exact ⟨i, le_refl i, by omega, Or.inr ⟨m, _, hm, rfl⟩⟩
      · obtain ⟨n, hn1, hn2, hsh2⟩ := hshape b hb3
        exact ⟨n, by omega, by omega, hsh2⟩
    · intro hinj
      have hid_rest : ∀ b ∈ rest, ∃ p j, (3 * (i + 1) + 1 ≤ j) ∧
          idOf b = some (vstr (uid p (o.shorts j))) := by
        intro b hb
        obtain ⟨n, hn1, hn2, hsh2⟩ := hshape b hb
        rcases hsh2 with ⟨txt, gid, mt, rfl⟩ | ⟨mt, gid, hmt, rfl⟩
        · exact ⟨"text", 3 * n + 1, by omega, idOf_mkTextBlock ..⟩
        · exact ⟨mt, 3 * n + 2, by omega, idOf_mkMediaBlock ..⟩
      rw [List.map_cons, List.map_cons, List.nodup_cons, List.nodup_cons]
      refine ⟨?_, ?_, hnodup hinj⟩
      · rw [idOf_mkTextBlock]
        intro hmem
        rcases List.mem_cons.mp hmem with heq | hmem2
        · rw [idOf_mkMediaBlock] at heq
          exact hinj "text" m (3 * i + 1) (3 * i + 2) (by omega)
            (Val.vstr.inj (Option.some.inj heq))
        · obtain ⟨b, hb, hbid⟩ := List.mem_map.mp hmem2
          obtain ⟨p, j, hj, hidb⟩ := hid_rest b hb
          rw [hidb] at hbid
          exact hinj "text" p (3 * i + 1) j (by omega)
            (Val.vstr.inj (Option.some.inj hbid.symm))
      · rw [idOf_mkMediaBlock]
        intro hmem
        obtain ⟨b, hb, hbid⟩ := List.mem_map.mp hmem
        obtain ⟨p, j, hj, hidb⟩ := hid_rest b hb
        rw [hidb] at hbid
        exact hinj m p (3 * i + 2) j (by omega)
          (Val.vstr.inj (Option.some.inj hbid.symm))

theorem text_role_vocab (mt : String) :
    isTextRole (vstr (text_role_for_media mt)) = true := by
  unfold text_role_for_media
  split <;> rfl

theorem media_role_vocab (mt : String) :
    isMediaRole (vstr (media_role_for_type mt)) = true := by
  unfold media_role_for_type
  split <;> rfl

theorem mock_media_has_url_source (mt label : String) :
    ∃ md, generate_mock_media mt label = vdict md ∧
      (dictGet md "url").isSome = true ∧ (dictGet md "source").isSome = true := by
  unfold generate_mock_media
  split <;> exact ⟨_, rfl, rfl, rfl⟩

theorem validate_mkTextBlock (s txt gid mt : String) :
    validate_content_block (mkTextBlock s txt gid mt) = [] := by
  unfold validate_content_block mkTextBlock
  have hrole := text_role_vocab mt
  simp [dictGet, roleErrors, hrole]

theorem validate_mkMediaBlock (s mt label gid : String) (hmt : mt ∈ MEDIA_TYPES) :
    validate_content_block (mkMediaBlock s mt label gid) = [] := by
  unfold validate_content_block mkMediaBlock
  have hrole := media_role_vocab mt
  have hmt2 : isMediaTypeVal (vstr mt) = true := by
    unfold isMediaTypeVal
    exact List.elem_eq_true_of_mem hmt
  have hne : vstr mt ≠ vstr "text" := by
    intro hc
    have h3 : mt = "text" := Val.vstr.inj hc
    subst h3
    simp [MEDIA_TYPES] at hmt
  obtain ⟨md, hmd, hurl, hsrc⟩ := mock_media_has_url_source mt label
  have hurl2 : dictGet md "url" ≠ none := by
    intro hc
    rw [hc] at hurl
    exact absurd hurl (by decide)
  have hsrc2 : dictGet md "source" ≠ none := by
    intro hc
    rw [hc] at hsrc
    exact absurd hsrc (by decide)
  simp [dictGet, roleErrors, mediaErrors, hrole, hmt2, hne, hmd, hurl2, hsrc2]

theorem gnodeVal_id (n : GNode) : (gnodeVal n).get "id" = some (vstr n.id) := rfl

theorem get_subtopic_not_visited (g : TopicGraph) (m s : String)
    (visited : List String) :
    ∀ nd ∈ get_subtopic_nodes g m s visited, nd.id ∉ visited := by
  intro nd hnd
  unfold get_subtopic_nodes at hnd
  have h2 := (List.mem_filter.mp hnd).2
  simpa using h2

theorem mockSuggest_not_visited (g : TopicGraph) (m s : String)
    (visited : List String) :
    ∀ nd ∈ mockSuggest g m s visited, nd.id ∉ visited := by
  intro nd hnd
  simp only [mockSuggest] at hnd
  split at hnd
  · split at hnd
    · exact get_subtopic_not_visited g m "deeper" visited nd hnd
    · split at hnd
      · exact get_subtopic_not_visited g m "branch" visited nd hnd
      · exact get_subtopic_not_visited g m "pivot" visited nd hnd
  · exact get_subtopic_not_visited g m s visited nd hnd

theorem mockSuggest_eq_firstNonempty (g : TopicGraph) (m s : String)
    (visited : List String) :
    mockSuggest g m s visited =
      (if (get_subtopic_nodes g m s visited).isEmpty then
        firstNonempty [get_subtopic_nodes g m "deeper" visited,
          get_subtopic_nodes g m "branch" visited,
          get_subtopic_nodes g m "pivot" visited]
      else get_subtopic_nodes g m s visited) := by
  by_cases h0 : (get_subtopic_nodes g m s visited).isEmpty <;>
    by_cases hd : (get_subtopic_nodes g m "deeper" visited).isEmpty <;>
    by_cases hb : (get_subtopic_nodes g m "branch" visited).isEmpty <;>
    by_cases hp : (get_subtopic_nodes g m "pivot" visited).isEmpty <;>
    simp_all [mockSuggest, firstNonempty, List.isEmpty_iff]

/-- C4: the mock generator's next-node suggestions never intersect the
visited set; they are the active strategy's subtopics minus visited,
retried through `deeper`, `branch`, `pivot` (in that order) until
non-empty or all exhausted; and when more than 3 candidates remain
exactly 3 are sampled (the `random.sample` outcome being any
3-element sub-selection), so the returned list never exceeds 3 entries. -/
theorem C4_next_node_suggestions (g : TopicGraph) (o : Oracles)
    (topic_id strategy : String) (visited : List String) (num_groups : ℕ)
    (hsh : ∀ j, (o.shuffles j).Perm MEDIA_TYPES)
    (hsam : ∀ l : List GNode, 3 < l.length →
      (o.sample3 l).length = 3 ∧ ∀ x ∈ o.sample3 l, x ∈ l) :
    ∃ blocks next,
      generate_content_blocks g o topic_id strategy visited num_groups
        = some (blocks, next) ∧
      next = (if 3 < (mockSuggest g (resolveMain g topic_id) strategy visited).length
          then o.sample3 (mockSuggest g (resolveMain g topic_id) strategy visited)
          else mockSuggest g (resolveMain g topic_id) strategy visited).map gnodeVal ∧
      mockSuggest g (resolveMain g topic_id) strategy visited =
        (if (get_subtopic_nodes g (resolveMain g topic_id) strategy visited).isEmpty then
          firstNonempty [get_subtopic_nodes g (resolveMain g topic_id) "deeper" visited,
            get_subtopic_nodes g (resolveMain g topic_id) "branch" visited,
            get_subtopic_nodes g (resolveMain g topic_id) "pivot" visited]
        else get_subtopic_nodes g (resolveMain g topic_id) strategy visited) ∧
      (∀ v ∈ next, ∀ id, v.get "id" = some (vstr id) → id ∉ visited) ∧
      next.length ≤ 3 := by
  obtain ⟨blocks, hblocks, hshape, hnodup⟩ := genGroups_full g o topic_id
    (resolveMain g topic_id) strategy hsh num_groups 0 (mkTracker none) []
    rfl (fun x hx => hx)
  have hmem_sugg : ∀ nd, nd ∈ (if 3 <
        (mockSuggest g (resolveMain g topic_id) strategy visited).length
      then o.sample3 (mockSuggest g (resolveMain g topic_id) strategy visited)
      else mockSuggest g (resolveMain g topic_id) strategy visited) →
      nd ∈ mockSuggest g (resolveMain g topic_id) strategy visited := by
    intro nd hnd
    by_cases hlen : 3 < (mockSuggest g (resolveMain g topic_id) strategy visited).length
    · rw [if_pos hlen] at hnd
      exact (hsam _ hlen).2 nd hnd
    · rwa [if_neg hlen] at hnd
  refine ⟨blocks, _, ?_, rfl, mockSuggest_eq_firstNonempty .., ?_, ?_⟩
  · simp only [generate_content_blocks]
    rw [hblocks]
  · intro v hv id hid
    obtain ⟨nd, hnd, rfl⟩ := List.mem_map.mp hv
    have hid2 : id = nd.id := by
      rw [gnodeVal_id] at hid
      exact (Val.vstr.inj (Option.some.inj hid)).symm
    rw [hid2]
    exact mockSuggest_not_visited g (resolveMain g topic_id) strategy visited nd
      (hmem_sugg nd hnd)
  · rw [List.length_map]
    by_cases hlen : 3 < (mockSuggest g (resolveMain g topic_id) strategy visited).length
    · rw [if_pos hlen, (hsam _ hlen).1]
    · rw [if_neg hlen]
      omega

/-- C5: over all random choices (shuffles, text picks, sampling) and any
duplicate-free, dash-free short-id supply — modelling the truncated
uuid4 stream — the mock generator succeeds, its block list has pairwise
distinct ids, and every returned block passes block-level validation. -/
theorem C5_blocks_unique_and_valid (g : TopicGraph) (o : Oracles)
    (topic_id strategy : String) (visited : List String) (num_groups : ℕ)
    (hsh : ∀ j, (o.shuffles j).Perm MEDIA_TYPES)
    (hinjS : Function.Injective o.shorts)
    (hdash : ∀ k, '-' ∉ (o.shorts k).data) :
    ∃ blocks next,
      generate_content_blocks g o topic_id strategy visited num_groups
        = some (blocks, next) ∧
      (blocks.map idOf).Nodup ∧
      ∀ b ∈ blocks, validate_content_block b = [] := by
  have hinj : ∀ p1 p2 j1 j2, j1 ≠ j2 →
      uid p1 (o.shorts j1) ≠ uid p2 (o.shorts j2) := by
    intro p1 p2 j1 j2 hj
    exact uid_ne_of_ne p1 p2 _ _ (hdash j1) (hdash j2) (fun hc => hj (hinjS hc))
  obtain ⟨blocks, hblocks, hshape, hnodup⟩ := genGroups_full g o topic_id
    (resolveMain g topic_id) strategy hsh num_groups 0 (mkTracker none) []
    rfl (fun x hx => hx)
  refine ⟨blocks,
    (if 3 < (mockSuggest g (resolveMain g topic_id) strategy visited).length
      then o.sample3 (mockSuggest g (resolveMain g topic_id) strategy visited)
      else mockSuggest g (resolveMain g topic_id) strategy visited).map gnodeVal,
    ?_, hnodup hinj, ?_⟩
  · simp only [generate_content_blocks]
    rw [hblocks]
  · intro b hb
    obtain ⟨n, _, _, hsh2⟩ := hshape b hb
    rcases hsh2 with ⟨txt, gid, mt, rfl⟩ | ⟨mt, gid, hmt, rfl⟩
    · exact validate_mkTextBlock ..
    · exact validate_mkMediaBlock _ _ _ _ hmt

theorem witShorts_injective : Function.Injective witShorts := by
  intro a b h
  have h2 := congrArg (fun s => s.data.length) h
  simpa [witShorts] using h2

theorem witShorts_dashfree : ∀ k, '-' ∉ (witShorts k).data := by
  intro k hc
  have hc2 : '-' ∈ List.replicate k 'a' := by simpa [witShorts] using hc
  have h2 := List.eq_of_mem_replicate hc2
  exact absurd h2 (by decide)

theorem witSample : ∀ l : List GNode, 3 < l.length →
    (witOracles.sample3 l).length = 3 ∧ ∀ x ∈ witOracles.sample3 l, x ∈ l := by
  intro l hl
  constructor
  · show (l.take 3).length = 3
    rw [List.length_take]
    omega
  · intro x hx
    exact List.mem_of_mem_take hx

/-- Witness for C4 at a concrete graph and oracles. -/
theorem C4_next_node_suggestions_witness :
    ∃ blocks next,
      generate_content_blocks trivialGraph witOracles "t" "deeper" ["v"] 1
        = some (blocks, next) ∧
      next = (if 3 < (mockSuggest trivialGraph (resolveMain trivialGraph "t")
            "deeper" ["v"]).length
          then witOracles.sample3 (mockSuggest trivialGraph
            (resolveMain trivialGraph "t") "deeper" ["v"])
          else mockSuggest trivialGraph (resolveMain trivialGraph "t")
            "deeper" ["v"]).map gnodeVal ∧
      mockSuggest trivialGraph (resolveMain trivialGraph "t") "deeper" ["v"] =
        (if (get_subtopic_nodes trivialGraph (resolveMain trivialGraph "t")
            "deeper" ["v"]).isEmpty then
          firstNonempty [get_subtopic_nodes trivialGraph
              (resolveMain trivialGraph "t") "deeper" ["v"],
            get_subtopic_nodes trivialGraph (resolveMain trivialGraph "t")
              "branch" ["v"],
            get_subtopic_nodes trivialGraph (resolveMain trivialGraph "t")
              "pivot" ["v"]]
        else get_subtopic_nodes trivialGraph (resolveMain trivialGraph "t")
          "deeper" ["v"]) ∧
      (∀ v ∈ next, ∀ id, v.get "id" = some (vstr id) → id ∉ ["v"]) ∧
      next.length ≤ 3 :=
  C4_next_node_suggestions trivialGraph witOracles "t" "deeper" ["v"] 1
    (fun _ => List.Perm.refl _) witSample

/-- Witness for C5 at a concrete graph and oracles. -/
theorem C5_blocks_unique_and_valid_witness :
    ∃ blocks next,
      generate_content_blocks trivialGraph witOracles "t" "deeper" [] 2
        = some (blocks, next) ∧
      (blocks.map idOf).Nodup ∧
      ∀ b ∈ blocks, validate_content_block b = [] :=
  C5_blocks_unique_and_valid trivialGraph witOracles "t" "deeper" [] 2
    (fun _ => List.Perm.refl _) witShorts_injective witShorts_dashfree

theorem claudeFilteredSrc_some_of_hashable (g : TopicGraph)
    (visited : List String) :
    ∀ claude_next : List Val, (∀ nid ∈ claude_next, hashableVal nid = true) →
      claudeFilteredSrc g visited claude_next
        = some (proposedFiltered g visited claude_next) := by
  intro claude_next
  induction claude_next with
  | nil => intro _; rfl
  | cons nid rest ih =>
    intro hall
    have hrest := ih (fun x hx => hall x (List.mem_cons_of_mem _ hx))
    simp only [proposedFiltered] at hrest ⊢
    rw [List.filterMap_cons]
    cases nid with
    | vstr s =>
      have hstep : claudeFilteredSrc g visited (vstr s :: rest)
          = (claudeFilteredSrc g visited rest).map (fun acc =>
              if !visited.contains s then
                match g.getNode s with
                | some n => vdict [("id", vstr n.id), ("label", vstr n.label)] :: acc
                | none => acc
              else acc) := rfl
      rw [hstep, hrest]
      by_cases hv : s ∈ visited
      · have hc : visited.contains s = true := by simpa using hv
        simp [hv, hc]
      · have hc : visited.contains s = false := by simpa using hv
        cases hn : g.getNode s with
        | none => simp [hv, hc, hn]
        | some n => simp [hv, hc, hn]
    | vnone =>
      have hstep : claudeFilteredSrc g visited (vnone :: rest)
          = claudeFilteredSrc g visited rest := rfl
      rw [hstep, hrest]
    | vbool b =>
      have hstep : claudeFilteredSrc g visited (vbool b :: rest)
          = claudeFilteredSrc g visited rest := rfl
      rw [hstep, hrest]
    | vint n =>
      have hstep : claudeFilteredSrc g visited (vint n :: rest)
          = claudeFilteredSrc g visited rest := rfl
      rw [hstep, hrest]
    | vnum q =>
      have hstep : claudeFilteredSrc g visited (vnum q :: rest)
          = claudeFilteredSrc g visited rest := rfl
      rw [hstep, hrest]
    | vlist l => exact Bool.noConfusion (hall (vlist l) (List.mem_cons_self _ _))
    | vdict d => exact Bool.noConfusion (hall (vdict d) (List.mem_cons_self _ _))

theorem claudeFilteredSrc_none_of_unhashable (g : TopicGraph)
    (visited : List String) :
    ∀ claude_next : List Val, (∃ nid ∈ claude_next, hashableVal nid = false) →
      claudeFilteredSrc g visited claude_next = none := by
  intro claude_next
  induction claude_next with
  | nil =>
    rintro ⟨nid, hnid, _⟩
    cases hnid
  | cons nid rest ih =>
    rintro ⟨bad, hbad, hunh⟩
    rcases List.mem_cons.mp hbad with rfl | hbad2
    · cases bad with
      | vlist l => rfl
      | vdict d => rfl
      | vnone => cases hunh
      | vbool b => cases hunh
      | vint n => cases hunh
      | vnum q => cases hunh
      | vstr s => cases hunh
    · have hrest := ih ⟨bad, hbad2, hunh⟩
      cases nid with
      | vstr s =>
        show (claudeFilteredSrc g visited rest).map _ = none
        rw [hrest]
        rfl
      | vnone => exact hrest
      | vbool b => exact hrest
      | vint n => exact hrest
      | vnum q => exact hrest
      | vlist l => rfl
      | vdict d => rfl

theorem proposedFiltered_mem (g : TopicGraph) (visited : List String)
    (claude_next : List Val) :
    ∀ v ∈ proposedFiltered g visited claude_next, ∃ s n,
      v = vdict [("id", vstr n.id), ("label", vstr n.label)] ∧
      g.getNode s = some n ∧ s ∉ visited := by
  intro v hv
  obtain ⟨nid, hnid, hf⟩ := List.mem_filterMap.mp hv
  cases nid with
  | vstr s =>
    by_cases hvc : visited.contains s
    · simp [hvc] at hf
      obtain ⟨hnv, a, ha, hav⟩ := hf
      exact ⟨s, a, hav.symm, ha, hnv⟩
    · have hv2 : visited.contains s = false := by
        cases h : visited.contains s
        · rfl
        · exact absurd h hvc
      cases hn : g.getNode s with
      | none => simp [hv2, hn] at hf
      | some n =>
        simp only [hv2, Bool.not_false, if_pos, hn] at hf
        refine ⟨s, n, ?_, hn, by simpa using hv2⟩
        simpa using hf.symm
  | vnone => simp at hf
  | vbool b => simp at hf
  | vint n => simp at hf
  | vnum q => simp at hf
  | vlist l => simp at hf
  | vdict d => simp at hf

theorem liveGraphFallback_len (g : TopicGraph) (topic_id strategy : String)
    (visited : List String) :
    (liveGraphFallback g topic_id strategy visited).length ≤ 3 := by
  unfold liveGraphFallback
  split
  · rename_i mt hmt
    split
    · rw [List.length_map]
      have h3 := List.length_take_le 3 (get_subtopic_nodes g mt strategy visited)
      omega
    · simp
  · simp

/-- C7 (amended: the fallback on an empty filtered list is the *active*
strategy's subtopic list minus visited, truncated to the first 3, and
only when a truthy main topic resolves — the live path does not retry
the other strategies the way the mock path of 4.4 does): on a successful
orchestrator plan whose proposed list has no unhashable (`list`/`dict`)
entry — such an entry makes the Python membership test against the
visited set raise `TypeError`, and the filter is then `none` — the
returned next-node suggestions are the proposed ids filtered to exclude
visited nodes and to include only ids that exist in the topic graph,
falling back as above when that filter is empty. -/
theorem C7_live_next_node_selection (g : TopicGraph) (lo : LiveOracles)
    (topic_id strategy : String) (visited : List String)
    (clientAvailable : Bool) (gjson : Option Val) (plan : Val)
    (groups : List Val) (blocks : List Val) (claude_next : List Val)
    (h1 : generate_content_with_claude clientAvailable gjson = some plan)
    (h2 : (plan.get "groups").getD (vlist []) = vlist groups)
    (h3 : execGroups lo (labelFor g topic_id) groups 0 = some blocks)
    (h4 : (plan.get "next_nodes").getD (vlist []) = vlist claude_next)
    (h5 : ∀ nid ∈ claude_next, hashableVal nid = true) :
    generate_content_blocks_live g lo topic_id strategy visited
        clientAvailable gjson
      = some (blocks,
          if (proposedFiltered g visited claude_next).isEmpty
          then liveGraphFallback g topic_id strategy visited
          else proposedFiltered g visited claude_next) ∧
    (∀ v ∈ proposedFiltered g visited claude_next, ∃ s n,
      v = vdict [("id", vstr n.id), ("label", vstr n.label)] ∧
      g.getNode s = some n ∧ s ∉ visited) ∧
    (liveGraphFallback g topic_id strategy visited).length ≤ 3 ∧
    (∀ cn : List Val, (∃ nid ∈ cn, hashableVal nid = false) →
      claudeFilteredSrc g visited cn = none) := by
  refine ⟨?_, proposedFiltered_mem g visited claude_next,
    liveGraphFallback_len g topic_id strategy visited,
    claudeFilteredSrc_none_of_unhashable g visited⟩
  unfold generate_content_blocks_live
  rw [h1]
  dsimp only
  rw [h2]
  dsimp only
  rw [h3]
  dsimp only
  rw [h4]
  dsimp only
  unfold liveNextNodes
  rw [claudeFilteredSrc_some_of_hashable g visited claude_next h5]
  rfl

/-- Witness for C7 at the concrete graph, plan and oracles. -/
theorem C7_live_next_node_selection_witness :
    generate_content_blocks_live cexGraph cexLiveOracles "t" "branch" []
        true (some cexPlan)
      = some ([],
          if (proposedFiltered cexGraph [] []).isEmpty
          then liveGraphFallback cexGraph "t" "branch" []
          else proposedFiltered cexGraph [] []) ∧
    (∀ v ∈ proposedFiltered cexGraph [] [], ∃ s n,
      v = vdict [("id", vstr n.id), ("label", vstr n.label)] ∧
      cexGraph.getNode s = some n ∧ s ∉ ([] : List String)) ∧
    (liveGraphFallback cexGraph "t" "branch" []).length ≤ 3 ∧
    (∀ cn : List Val, (∃ nid ∈ cn, hashableVal nid = false) →
      claudeFilteredSrc cexGraph [] cn = none) :=
  C7_live_next_node_selection cexGraph cexLiveOracles "t" "branch" []
    true (some cexPlan) cexPlan [] [] []
    (by decide) (by decide) rfl (by decide) (by decide)

/-- C7 counterexample: with every `deeper` subtopic exhausted but a
`branch` subtopic available, an empty orchestrator proposal makes the
live path return *no* suggestions, while the mock path's 4.4 logic (the
claimed fallback, which retries `deeper`, `branch`, `pivot`) would
return the branch node — so the live path does not fall back to the
mock path's strategy-retrying suggestion logic. -/
theorem C7_counterexample_no_mock_fallback :
    generate_content_blocks_live cexGraph cexLiveOracles "t" "deeper" []
        true (some cexPlan)
      = some ([], []) ∧
    mockSuggest cexGraph "t" "deeper" [] = [⟨"b", "B", "branch node"⟩] ∧
    ([] : List Val) ≠ [gnodeVal ⟨"b", "B", "branch node"⟩] :=
  ⟨by decide, by decide, by decide⟩

end SciScroll
